import Mathlib

/-!
# Buffer pool of an OpenMAX port (`omx/gstomxbufferpool.c`)

A shallow embedding of the buffer pool that `gst-omx` places in front of the
buffers of an OpenMAX port, followed by the properties established about it.

Conventions of the embedding:

* C integers are mathematical integers that are reduced explicitly whenever
  the C code stores them in a fixed-width object: `to_guint` for `guint` and
  `OMX_U32`, `to_gint` for `gint`, `to_gsize` for `gsize`.
* A pointer to a `GstOMXBuffer` is the position of that buffer in
  `port->buffers`; a pointer to a `GstBuffer` of the pool is its position in
  `pool->buffers`.
* Calls that leave the file (the memory manager, the port, the parent class)
  are answered by the fields of `Env` and recorded in a trace of `Event`s.
-/

namespace GstOmxBufferPool

/-! ## Machine integers -/

/-- Value held by a `guint` / `OMX_U32` after the natural number `x` is stored in it. -/
def to_guint (x : Nat) : Nat := x % 2 ^ 32

/-- Value held by a `gint` (32-bit two's complement) after the integer `x` is stored in it. -/
def to_gint (x : Int) : Int := (x + 2 ^ 31) % 2 ^ 32 - 2 ^ 31

/-- The 32-bit pattern of a `gint`, which is also its value after conversion to `guint`. -/
def gint_bits (x : Int) : Nat := (x % 2 ^ 32).toNat

/-- Value held by a `gsize` (64-bit unsigned) after the integer `x` is stored in it. -/
def to_gsize (x : Int) : Nat := (x % 2 ^ 64).toNat

/-- The C operator `&` on two `gint` operands. -/
def gint_and (a b : Int) : Int := to_gint (Int.ofNat (gint_bits a &&& gint_bits b))

/-- The C operator `~` on a `gint` operand. -/
def gint_not (a : Int) : Int := to_gint (Int.ofNat (2 ^ 32 - 1 - gint_bits a))

/-- The GStreamer helper `GST_ROUND_UP_N (num, align)`, that is
`(((num) + ((align) - 1)) & ~((align) - 1))`, on `gint` operands. -/
def GST_ROUND_UP_N (num align : Int) : Int :=
  gint_and (to_gint (num + to_gint (align - 1))) (gint_not (to_gint (align - 1)))

/-! ## Alignment conversion of `gst_omx_memory_allocator_alloc` -/

/-- The `align` local of `gst_omx_memory_allocator_alloc` when it reaches
`gst_memory_init`: the port's `nBufferAlignment` is stored in a `gint`,
decremented when positive, and reset to `0` when `(align + 1) & align` is not
zero. -/
def gst_omx_memory_allocator_alloc_align (nBufferAlignment : Nat) : Int :=
  let align0 : Int := to_gint (Int.ofNat nBufferAlignment)
  let align1 : Int := if align0 > 0 then to_gint (align0 - 1) else align0
  if gint_and (to_gint (align1 + 1)) align1 ≠ 0 then 0 else align1

/-! ## Per-plane arithmetic of the dmabuf export -/

/-- The four per-plane locals of the loop body of
`gst_omx_buffer_pool_create_buffer_contain_dmabuf`. -/
structure PlaneExport where
  phys_addr : Nat
  page_offset : Int
  plane_size : Int
  plane_size_ext : Int
  deriving DecidableEq, Repr

/-- Lines 402-413: the plane's physical address (a `guint`), its offset to the
page boundary, its size and its size extended to whole pages.  `base` is
`decode_res->pvPhysImageAddressY`, `offset`, `stride` and `slice` are the
entries of the three arrays for the plane. -/
def plane_export (page_size : Int) (base offset : Nat) (stride slice : Int) : PlaneExport :=
  let phys_addr : Nat := to_guint (base + offset)
  let page_offset : Int :=
    to_gint (Int.ofNat (phys_addr &&& gint_bits (to_gint (page_size - 1))))
  let plane_size : Int := to_gint (stride * slice)
  let plane_size_ext : Int := GST_ROUND_UP_N (to_gint (plane_size + page_offset)) page_size
  { phys_addr := phys_addr, page_offset := page_offset, plane_size := plane_size,
    plane_size_ext := plane_size_ext }

/-! ## Data model -/

/-- Direction of a port (`OMX_DIRTYPE`). -/
inductive OMX_DIRTYPE
  | OMX_DirInput
  | OMX_DirOutput
  deriving DecidableEq, Repr

/-- Return values of the pool operations (`GstFlowReturn`). -/
inductive GstFlowReturn
  | GST_FLOW_OK
  | GST_FLOW_ERROR
  deriving DecidableEq, Repr

/-- The video formats told apart by the `switch` of `gst_omx_buffer_pool_alloc_buffer`;
`OTHER` stands for every format that reaches its `default` label. -/
inductive GstVideoFormat
  | ABGR | ARGB | RGB16 | BGR16 | YUY2 | UYVY | YVYU | GRAY8
  | I420
  | NV12 | NV16
  | OTHER
  deriving DecidableEq, Repr

/-- The fields of `GstVideoInfo` read by the pool. -/
structure GstVideoInfo where
  format : GstVideoFormat
  width : Int
  height : Int
  n_planes : Nat
  deriving DecidableEq, Repr

/-- A hardware buffer slot: a `GstOMXBuffer` with the fields of its
`OMX_BUFFERHEADERTYPE` that the pool reads.  `pOutputPortPrivate` is `none` for
a NULL pointer and otherwise holds `pvPhysImageAddressY` of the decode result. -/
structure GstOMXBuffer where
  used : Bool
  nAllocLen : Nat
  nFilledLen : Nat
  nOffset : Nat
  pOutputPortPrivate : Option Nat
  deriving DecidableEq, Repr

/-- The fields of `OMX_PARAM_PORTDEFINITIONTYPE` read by the pool. -/
structure PortDef where
  eDir : OMX_DIRTYPE
  nBufferCountActual : Nat
  nBufferAlignment : Nat
  nStride : Nat
  nSliceHeight : Nat
  deriving DecidableEq, Repr

/-- A port: its definition and its array of slots (`port->buffers`), whose
entries may be NULL (`none`). -/
structure GstOMXPort where
  port_def : PortDef
  buffers : List (Option GstOMXBuffer)
  deriving DecidableEq, Repr

/-- The `mem_type` of the allocator behind a memory region. -/
inductive MemType
  | openmax
  | dmabuf
  | system
  | foreign
  deriving DecidableEq, Repr

/-- GStreamer's `GST_MEMORY_FLAG_READONLY` (`GST_MINI_OBJECT_FLAG_LOCK_READONLY`, bit 1). -/
def GST_MEMORY_FLAG_READONLY : Nat := 2

/-- GStreamer's `GST_MEMORY_FLAG_NO_SHARE` (`GST_MINI_OBJECT_FLAG_LAST`, bit 4). -/
def GST_MEMORY_FLAG_NO_SHARE : Nat := 16

/-- A memory region (`GstMemory`); `buf` is the slot of a `GstOMXMemory`,
`fd` the descriptor of a dmabuf memory. -/
structure GstMemory where
  flags : Nat
  mem_type : MemType
  maxsize : Nat
  align : Nat
  offset : Nat
  size : Nat
  buf : Option Nat
  fd : Option Int
  deriving DecidableEq, Repr

/-- The video meta attached to a buffer. -/
structure GstVideoMeta where
  format : GstVideoFormat
  width : Int
  height : Int
  n_planes : Nat
  offset : List Nat
  stride : List Int
  deriving DecidableEq, Repr

/-- A buffer object (`GstBuffer`): the pool that owns it (`buffer->pool`), its
memory regions, its video meta and the slot stored under the
`GstOMXBufferData` quark (`none` for NULL). -/
structure GstBuffer where
  pool : Option Nat
  memory : List GstMemory
  video_meta : Option GstVideoMeta
  qdata : Option Nat
  deriving DecidableEq, Repr

/-- The element that owns the pool, as far as the pool inspects it: the two
type checks and the two fields read through `GST_OMX_VIDEO_DEC` and
`GST_OMX_VIDEO_ENC`. -/
structure GstElement where
  is_video_dec : Bool
  is_video_enc : Bool
  use_dmabuf : Bool
  no_copy : Bool
  deriving DecidableEq, Repr

/-- The allocator held in `pool->allocator`: it is created in
`gst_omx_buffer_pool_init`, only ever exchanged for another allocator, and so
is the OMX allocator or the dmabuf allocator until `finalize`. -/
inductive PoolAllocator
  | omx
  | dmabuf
  deriving DecidableEq, Repr

/-- The pool object (`GstOMXBufferPool`). -/
structure GstOMXBufferPool where
  element : GstElement
  component : Bool
  port : Option GstOMXPort
  caps : Option Nat
  video_info : GstVideoInfo
  add_videometa : Bool
  need_copy : Bool
  buffers : List (Option GstBuffer)
  other_pool : Option Nat
  allocating : Bool
  deactivated : Bool
  current_buffer_index : Int
  enc_buffer_index : Nat
  allocator : PoolAllocator
  id_array : List Int
  deriving DecidableEq, Repr

/-- Calls that leave the file, in the order in which they are made. -/
inductive Event
  | export_start (hard_addr : Nat) (size : Nat) (res : Option (Int × Int))
  | export_end (id : Int)
  | invalid_dmabuf_id
  | port_release (slot : Nat) (err : Int)
  | element_error
  | parent_stop
  | parent_acquire_buffer
  | parent_release_buffer (buffer : Nat)
  | parent_free_buffer
  deriving DecidableEq, Repr

/-- The collaborators of the pool.  Each answer may depend on everything that
happened before (the trace).
* `page_size`: `getpagesize ()`;
* `mmngr_export_start_in_user_ext trace size hard_addr`: `some (id, fd)` when
  the memory manager returns `R_MM_OK`, `none` otherwise;
* `gst_omx_port_release_buffer trace port slot`: the OMX error code
  (`0` is `OMX_ErrorNone`) and the port afterwards;
* `gst_video_info_set_format`: the default strides and offsets of a format;
* the virtual methods of the parent class `GstBufferPool`. -/
structure Env where
  page_size : Int
  mmngr_export_start_in_user_ext : List Event → Nat → Nat → Option (Int × Int)
  gst_omx_port_release_buffer : List Event → GstOMXPort → Nat → Int × GstOMXPort
  gst_video_info_set_format : GstVideoFormat → Int → Int → List Int × List Nat
  parent_stop : List Event → Bool
  parent_acquire_buffer : List Event → GstFlowReturn × Option Nat

/-- The pool together with the trace of the calls made so far. -/
structure St where
  pool : GstOMXBufferPool
  trace : List Event
  deriving DecidableEq, Repr

/-- How a C function ends: it returns (`done`), a `g_assert` or
`g_assert_not_reached` fails (`abort`), it dereferences NULL or reads outside
an array (`undef`), or the fuel of a loop is used up (`timeout`). -/
inductive Run (α : Type)
  | done (a : α)
  | abort
  | undef
  | timeout
  deriving DecidableEq, Repr

/-- The macro `g_ptr_array_index (array, index)`: `none` outside the array. -/
def g_ptr_array_index {α : Type} (array : List α) (index : Int) : Option α :=
  if index < 0 then none else array[index.toNat]?

/-! ## The memory allocator -/

/-- The function `gst_omx_memory_allocator_alloc (allocator, flags, buf)`: the memory
handed to `gst_memory_init (mem, flags, allocator, NULL, nAllocLen, align, 0,
nAllocLen)` for the slot `slot`, whose buffer is `omx_buf`, of `port`. -/
def gst_omx_memory_allocator_alloc (flags : Nat) (port : GstOMXPort) (slot : Nat)
    (omx_buf : GstOMXBuffer) : GstMemory :=
  let flags1 : Nat := flags ||| GST_MEMORY_FLAG_NO_SHARE
  let align : Int := gst_omx_memory_allocator_alloc_align port.port_def.nBufferAlignment
  { flags := flags1, mem_type := MemType.openmax, maxsize := omx_buf.nAllocLen,
    align := to_gsize align, offset := 0, size := omx_buf.nAllocLen,
    buf := some slot, fd := none }

/-- GStreamer's `gst_memory_new_wrapped (flags, data, maxsize, offset, size, NULL, NULL)`. -/
def gst_memory_new_wrapped (flags maxsize offset size : Nat) : GstMemory :=
  { flags := flags, mem_type := MemType.system, maxsize := maxsize, align := 0,
    offset := offset, size := size, buf := none, fd := none }

/-- GStreamer's `gst_dmabuf_allocator_alloc (allocator, fd, size)`: a memory of
`size` bytes over the descriptor, or NULL (`none`) when the allocator is not
the dmabuf allocator. -/
def gst_dmabuf_allocator_alloc (allocator : PoolAllocator) (fd : Int) (size : Nat) :
    Option GstMemory :=
  match allocator with
  | PoolAllocator.dmabuf =>
    some { flags := 0, mem_type := MemType.dmabuf, maxsize := size, align := 0,
           offset := 0, size := size, buf := none, fd := some fd }
  | PoolAllocator.omx => none

/-! ## Pool lifecycle -/

/-- The calls made by the export loop of `gst_omx_buffer_pool_finalize` (built
with `HAVE_MMNGRBUF`): one `mmngr_export_end_in_user_ext` for every
non-negative entry of `id_array`, a warning for every negative one, and
nothing when the element does not use dmabuf. -/
def gst_omx_buffer_pool_finalize (pool : GstOMXBufferPool) : List Event :=
  if pool.element.use_dmabuf then
    pool.id_array.map
      (fun dmabuf_id => if dmabuf_id ≥ 0 then Event.export_end dmabuf_id
        else Event.invalid_dmabuf_id)
  else []

/-! ## The dmabuf export -/

/-- What the plane loop of `gst_omx_buffer_pool_create_buffer_contain_dmabuf`
leaves behind: the memories appended to `new_buf` (`none` when the function
returned NULL), `self->id_array` and the trace. -/
structure DmabufPlanes where
  memory : Option (List GstMemory)
  id_array : List Int
  trace : List Event
  deriving DecidableEq, Repr

/-- The plane loop (lines 395-431) from plane `i` on, with `remaining` planes
still to export.  `mems` are the memories appended so far. -/
def dmabuf_plane_loop (env : Env) (allocator : PoolAllocator) (base : Nat)
    (stride slice : List Int) (offset : List Nat) :
    Nat → Nat → List GstMemory → List Int → List Event → Run DmabufPlanes
  | 0, _, mems, ids, trace => Run.done { memory := some mems, id_array := ids, trace := trace }
  | remaining + 1, i, mems, ids, trace =>
    match offset[i]?, stride[i]?, slice[i]? with
    | some offset_i, some stride_i, some slice_i =>
      let pe : PlaneExport := plane_export env.page_size base offset_i stride_i slice_i
      let size : Nat := to_gsize pe.plane_size_ext
      let res : Option (Int × Int) :=
        env.mmngr_export_start_in_user_ext trace size pe.phys_addr
      let trace1 : List Event := trace ++ [Event.export_start pe.phys_addr size res]
      match res with
      | none => Run.done { memory := none, id_array := ids, trace := trace1 }
      | some (dmabuf_id, dmabuf_fd) =>
        match gst_dmabuf_allocator_alloc allocator dmabuf_fd size with
        | none => Run.undef
        | some mem =>
          let mem1 : GstMemory :=
            { mem with offset := to_gsize pe.page_offset, size := to_gsize pe.plane_size }
          dmabuf_plane_loop env allocator base stride slice offset remaining (i + 1)
            (mems ++ [mem1]) (ids ++ [dmabuf_id]) trace1
    | _, _, _ => Run.undef

/-- The function `gst_omx_buffer_pool_create_buffer_contain_dmabuf (self, omx_buf,
stride, slice, offset)`; `base` is the physical address in the decode result
of `omx_buf`.  Returns the position of the new buffer (`none` for NULL) and
the state afterwards. -/
def gst_omx_buffer_pool_create_buffer_contain_dmabuf (env : Env) (s : St) (base : Nat)
    (stride slice : List Int) (offset : List Nat) : Run (Option Nat × St) :=
  match dmabuf_plane_loop env s.pool.allocator base stride slice offset
      s.pool.video_info.n_planes 0 [] s.pool.id_array s.trace with
  | Run.done r =>
    match r.memory with
    | none => Run.done (none, { pool := { s.pool with id_array := r.id_array }, trace := r.trace })
    | some mems =>
      let meta : GstVideoMeta :=
        { format := s.pool.video_info.format, width := s.pool.video_info.width,
          height := s.pool.video_info.height, n_planes := s.pool.video_info.n_planes,
          offset := offset, stride := stride }
      let new_buf : GstBuffer :=
        { pool := none, memory := mems, qdata := none, video_meta := some meta }
      Run.done (some s.pool.buffers.length,
        { pool := { s.pool with id_array := r.id_array,
                                buffers := s.pool.buffers ++ [some new_buf] },
          trace := r.trace })
  | Run.abort => Run.abort
  | Run.undef => Run.undef
  | Run.timeout => Run.timeout

/-! ## Allocation -/

/-- The three arrays `stride`, `slice` and `offset` of `gst_omx_buffer_pool_alloc_buffer`,
each of `GST_VIDEO_MAX_PLANES` (four) entries. -/
structure PlaneLayout where
  stride : List Int
  slice : List Int
  offset : List Nat
  deriving DecidableEq, Repr

/-- Lines 491-527: the plane layout computed from the port's `nStride` and
`nSliceHeight` (both stored in a `guint`); `none` when the format reaches
`g_assert_not_reached ()`.  A product of a `gint` and a `guint` is a `guint`. -/
def plane_layout (format : GstVideoFormat) (nStride nSliceHeight : Nat) : Option PlaneLayout :=
  let nstride : Nat := to_guint nStride
  let nslice : Nat := to_guint nSliceHeight
  let stride0 : Int := to_gint (Int.ofNat nstride)
  let slice0 : Int := to_gint (Int.ofNat nslice)
  let packed : PlaneLayout :=
    { stride := [stride0, 0, 0, 0], slice := [slice0, 0, 0, 0], offset := [0, 0, 0, 0] }
  let offset1 : Nat := to_gsize (Int.ofNat (0 + to_guint (gint_bits stride0 * nslice)))
  let semi_planar : PlaneLayout :=
    { stride := [stride0, to_gint (Int.ofNat nstride), 0, 0],
      slice := [slice0, to_gint (Int.ofNat (nslice / 2)), 0, 0],
      offset := [0, offset1, 0, 0] }
  match format with
  | GstVideoFormat.ABGR => some packed
  | GstVideoFormat.ARGB => some packed
  | GstVideoFormat.RGB16 => some packed
  | GstVideoFormat.BGR16 => some packed
  | GstVideoFormat.YUY2 => some packed
  | GstVideoFormat.UYVY => some packed
  | GstVideoFormat.YVYU => some packed
  | GstVideoFormat.GRAY8 => some packed
  | GstVideoFormat.I420 =>
    let stride1 : Int := to_gint (Int.ofNat (nstride / 2))
    let slice1 : Int := to_gint (Int.ofNat (nslice / 2))
    let stride2 : Int := to_gint (Int.ofNat (nstride / 2))
    let slice2 : Int := slice1
    let offset2 : Nat :=
      to_gsize (Int.ofNat (offset1 + to_guint (gint_bits stride1 * nslice) / 2))
    some { stride := [stride0, stride1, stride2, 0],
           slice := [slice0, slice1, slice2, 0],
           offset := [0, offset1, offset2, 0] }
  | GstVideoFormat.NV12 => some semi_planar
  | GstVideoFormat.NV16 => some semi_planar
  | GstVideoFormat.OTHER => none

/-- Lines 583-588: whether some plane below the plane count has a stride or an
offset that differs from the default layout `info`; `none` when the loop reads
outside the arrays. -/
def layout_differs (info_stride : List Int) (info_offset : List Nat) (stride : List Int)
    (offset : List Nat) : Nat → Nat → Option Bool
  | 0, _ => some false
  | remaining + 1, i =>
    match info_stride[i]?, stride[i]?, info_offset[i]?, offset[i]? with
    | some is, some st, some io, some off =>
      if is ≠ st || io ≠ off then some true
      else layout_differs info_stride info_offset stride offset remaining (i + 1)
    | _, _, _, _ => none

/-- What `gst_omx_buffer_pool_alloc_buffer` returns: the flow return, the
position of the buffer stored in `*buffer` (`none` when it is not written) and
the state afterwards. -/
structure AllocResult where
  ret : GstFlowReturn
  buffer : Option Nat
  st : St
  deriving DecidableEq, Repr

/-- Lines 606-613: the buffer at position `pos`, whose value is `buf`, gets
the slot as its `GstOMXBufferData`, is stored in `*buffer`, and the allocation
index advances. -/
def alloc_buffer_finish (pool : GstOMXBufferPool) (trace : List Event) (pos : Nat)
    (buf : GstBuffer) (slot : Nat) : AllocResult :=
  { ret := GstFlowReturn.GST_FLOW_OK, buffer := some pos,
    st := { pool := { pool with buffers := pool.buffers.set pos (some { buf with qdata := some slot }),
                                current_buffer_index := pool.current_buffer_index + 1 },
            trace := trace } }

/-- Lines 457-488: the buffer of the borrowed pool at the allocation index is
detached from that pool, its memories become non-shareable and it gets a video
meta when one is wanted and missing. -/
def alloc_buffer_other_pool (env : Env) (s : St) (other_pool slot : Nat) : Run AllocResult :=
  match g_ptr_array_index s.pool.buffers s.pool.current_buffer_index with
  | some (some buf) =>
    if some other_pool ≠ buf.pool then Run.abort
    else
      let buf1 : GstBuffer :=
        { buf with pool := none,
                   memory := buf.memory.map
                     (fun mem => { mem with flags := mem.flags ||| GST_MEMORY_FLAG_NO_SHARE }) }
      let info : List Int × List Nat :=
        env.gst_video_info_set_format s.pool.video_info.format s.pool.video_info.width
          s.pool.video_info.height
      let meta : GstVideoMeta :=
        { format := s.pool.video_info.format, width := s.pool.video_info.width,
          height := s.pool.video_info.height, n_planes := s.pool.video_info.n_planes,
          offset := info.2, stride := info.1 }
      let buf2 : GstBuffer :=
        if s.pool.add_videometa && buf1.video_meta.isNone then { buf1 with video_meta := some meta }
        else buf1
      Run.done (alloc_buffer_finish { s.pool with need_copy := false } s.trace slot buf2 slot)
  | _ => Run.undef

/-- Lines 552-602: the direct strategy.  The slot is wrapped by a system
memory for the input port of an encoder and by a memory of the OMX allocator
otherwise; the buffer is appended to the array and gets the video meta when
it is wanted or when the layout differs from the default one. -/
def alloc_buffer_direct (env : Env) (s : St) (port : GstOMXPort) (slot : Nat)
    (omx_buf : GstOMXBuffer) (layout : PlaneLayout) : Run AllocResult :=
  let mem : GstMemory :=
    if s.pool.element.is_video_enc && port.port_def.eDir == OMX_DIRTYPE.OMX_DirInput then
      gst_memory_new_wrapped 0 omx_buf.nAllocLen 0 0
    else gst_omx_memory_allocator_alloc 0 port slot omx_buf
  let info : List Int × List Nat :=
    env.gst_video_info_set_format s.pool.video_info.format s.pool.video_info.width
      s.pool.video_info.height
  let need_copy : Option Bool :=
    if s.pool.add_videometa then some false
    else layout_differs info.1 info.2 layout.stride layout.offset s.pool.video_info.n_planes 0
  match need_copy with
  | none => Run.undef
  | some need_copy =>
    let meta : GstVideoMeta :=
      { format := s.pool.video_info.format, width := s.pool.video_info.width,
        height := s.pool.video_info.height, n_planes := s.pool.video_info.n_planes,
        offset := layout.offset, stride := layout.stride }
    let buf : GstBuffer :=
      { pool := none, memory := [mem], qdata := none,
        video_meta := if need_copy || s.pool.add_videometa then some meta else none }
    let pool1 : GstOMXBufferPool :=
      { s.pool with allocator := PoolAllocator.omx, buffers := s.pool.buffers ++ [some buf],
                    need_copy := need_copy }
    Run.done (alloc_buffer_finish pool1 s.trace s.pool.buffers.length buf slot)

/-- Lines 529-545: the dmabuf strategy (built with `HAVE_MMNGRBUF` and
`HAVE_VIDEODEC_EXT`).  The pool switches to the dmabuf allocator and the
buffer is built by `gst_omx_buffer_pool_create_buffer_contain_dmabuf`; a NULL
result ends the allocation with `GST_FLOW_ERROR`. -/
def alloc_buffer_dmabuf (env : Env) (s : St) (slot base : Nat) (layout : PlaneLayout) :
    Run AllocResult :=
  let s1 : St := { s with pool := { s.pool with allocator := PoolAllocator.dmabuf } }
  match gst_omx_buffer_pool_create_buffer_contain_dmabuf env s1 base layout.stride
      layout.slice layout.offset with
  | Run.done (none, s2) =>
    Run.done { ret := GstFlowReturn.GST_FLOW_ERROR, buffer := none, st := s2 }
  | Run.done (some pos, s2) =>
    match s2.pool.buffers[pos]? with
    | some (some buf) => Run.done (alloc_buffer_finish s2.pool s2.trace pos buf slot)
    | _ => Run.undef
  | Run.abort => Run.abort
  | Run.undef => Run.undef
  | Run.timeout => Run.timeout

/-- The function `gst_omx_buffer_pool_alloc_buffer`. -/
def gst_omx_buffer_pool_alloc_buffer (env : Env) (s : St) : Run AllocResult :=
  if !s.pool.allocating then
    Run.done { ret := GstFlowReturn.GST_FLOW_ERROR, buffer := none, st := s }
  else
    match s.pool.port with
    | none => Run.undef
    | some port =>
      match g_ptr_array_index port.buffers s.pool.current_buffer_index with
      | none => Run.undef
      | some none => Run.done { ret := GstFlowReturn.GST_FLOW_ERROR, buffer := none, st := s }
      | some (some omx_buf) =>
        let slot : Nat := s.pool.current_buffer_index.toNat
        match s.pool.other_pool with
        | some other_pool => alloc_buffer_other_pool env s other_pool slot
        | none =>
          match plane_layout s.pool.video_info.format port.port_def.nStride
              port.port_def.nSliceHeight with
          | none => Run.abort
          | some layout =>
            match s.pool.element.is_video_dec && s.pool.element.use_dmabuf,
                omx_buf.pOutputPortPrivate with
            | true, some base => alloc_buffer_dmabuf env s slot base layout
            | _, _ => alloc_buffer_direct env s port slot omx_buf layout

/-- The function `gst_omx_buffer_pool_free_buffer (bpool, buffer)`: a buffer of a
borrowed pool gets that pool back as its owner, the slot association is
cleared and the buffer goes to the parent's `free_buffer`. -/
def gst_omx_buffer_pool_free_buffer (s : St) (buffer : GstBuffer) : GstBuffer × St :=
  let buffer1 : GstBuffer :=
    match s.pool.other_pool with
    | some other_pool => { buffer with pool := some other_pool }
    | none => buffer
  ({ buffer1 with qdata := none }, { s with trace := s.trace ++ [Event.parent_free_buffer] })

/-! ## Acquire -/

/-- What the search loop of the encoder leaves behind: the position of the
last `buf` it read (`none` when the entry was NULL and the function returned
from inside the loop), the cursor `pool->enc_buffer_index`, the `gint`
counter `count`, and the positions of `pool->buffers` it examined, in order. -/
structure EncSearch where
  buf : Option Nat
  enc_buffer_index : Nat
  count : Int
  probed : List Nat
  deriving DecidableEq, Repr

/-- Lines 673-686: the `do ... while` loop of the encoder input search.  One
unit of fuel is one execution of the body.  `count` is a `gint` that is
compared with the `OMX_U32` product `nBufferCountActual * 3` as an unsigned
number. -/
def enc_search_loop (port : GstOMXPort) (buffers : List (Option GstBuffer)) :
    Nat → Nat → Int → List Nat → Run EncSearch
  | 0, _, _, _ => Run.timeout
  | fuel + 1, enc_buffer_index, count, probed =>
    match buffers[enc_buffer_index]? with
    | none => Run.undef
    | some none =>
      Run.done { buf := none, enc_buffer_index := enc_buffer_index, count := count,
                 probed := probed ++ [enc_buffer_index] }
    | some (some buf) =>
      let index1 : Nat := enc_buffer_index + 1
      let index2 : Nat := if index1 = port.port_def.nBufferCountActual then 0 else index1
      let count1 : Int := to_gint (count + 1)
      let probed1 : List Nat := probed ++ [enc_buffer_index]
      match buf.qdata with
      | none => Run.undef
      | some slot =>
        match port.buffers[slot]? with
        | some (some omx_buf) =>
          if omx_buf.used && gint_bits count1 < to_guint (port.port_def.nBufferCountActual * 3) then
            enc_search_loop port buffers fuel index2 count1 probed1
          else
            Run.done { buf := some enc_buffer_index, enc_buffer_index := index2,
                       count := count1, probed := probed1 }
        | _ => Run.undef

/-- What `gst_omx_buffer_pool_acquire_buffer` returns: the flow return, the
position of the buffer stored in `*buffer` (`none` when it is not written),
the state afterwards and the positions of `pool->buffers` that the encoder
search examined. -/
structure AcquireResult where
  ret : GstFlowReturn
  buffer : Option Nat
  st : St
  probed : List Nat
  deriving DecidableEq, Repr

/-- Lines 643-662: acquire on an output port.  The buffer at
`current_buffer_index` is returned; when the memory is the pool's own (no
borrowed pool, no dmabuf) the size and offset of its first memory are taken
from the slot behind that memory. -/
def acquire_buffer_output (s : St) (port : GstOMXPort) : Run AcquireResult :=
  if s.pool.current_buffer_index = -1 then
    Run.done { ret := GstFlowReturn.GST_FLOW_ERROR, buffer := none, st := s, probed := [] }
  else
    match g_ptr_array_index s.pool.buffers s.pool.current_buffer_index with
    | none => Run.undef
    | some none =>
      Run.done { ret := GstFlowReturn.GST_FLOW_ERROR, buffer := none, st := s, probed := [] }
    | some (some buf) =>
      let pos : Nat := s.pool.current_buffer_index.toNat
      if s.pool.other_pool.isNone && s.pool.element.use_dmabuf == false then
        match buf.memory with
        | [] => Run.abort
        | mem :: rest =>
          if mem.mem_type ≠ MemType.openmax then Run.abort
          else
            match mem.buf with
            | none => Run.undef
            | some slot =>
              match port.buffers[slot]? with
              | some (some omx_buf) =>
                let mem1 : GstMemory :=
                  { mem with size := omx_buf.nFilledLen, offset := omx_buf.nOffset }
                let buf1 : GstBuffer := { buf with memory := mem1 :: rest }
                Run.done
                  { ret := GstFlowReturn.GST_FLOW_OK, buffer := some pos,
                    st := { s with pool := { s.pool with buffers := s.pool.buffers.set pos (some buf1) } },
                    probed := [] }
              | _ => Run.undef
      else
        Run.done { ret := GstFlowReturn.GST_FLOW_OK, buffer := some pos, st := s, probed := [] }

/-- Lines 664-695: acquire on the input port of a video encoder. -/
def acquire_buffer_enc (s : St) (port : GstOMXPort) : Run AcquireResult :=
  match enc_search_loop port s.pool.buffers (2 ^ 32) s.pool.enc_buffer_index 0 [] with
  | Run.done r =>
    let s1 : St := { s with pool := { s.pool with enc_buffer_index := r.enc_buffer_index } }
    match r.buf with
    | none =>
      Run.done { ret := GstFlowReturn.GST_FLOW_ERROR, buffer := none, st := s1, probed := r.probed }
    | some pos =>
      if gint_bits r.count = to_guint (port.port_def.nBufferCountActual * 3) then
        Run.done
          { ret := GstFlowReturn.GST_FLOW_ERROR, buffer := none, st := s1, probed := r.probed }
      else
        Run.done
          { ret := GstFlowReturn.GST_FLOW_OK, buffer := some pos, st := s1, probed := r.probed }
  | Run.abort => Run.abort
  | Run.undef => Run.undef
  | Run.timeout => Run.timeout

/-- The function `gst_omx_buffer_pool_acquire_buffer`. -/
def gst_omx_buffer_pool_acquire_buffer (env : Env) (s : St) : Run AcquireResult :=
  match s.pool.port with
  | none => Run.undef
  | some port =>
    if port.port_def.eDir = OMX_DIRTYPE.OMX_DirOutput then acquire_buffer_output s port
    else if s.pool.element.is_video_enc then acquire_buffer_enc s port
    else
      let r : GstFlowReturn × Option Nat := env.parent_acquire_buffer s.trace
      Run.done { ret := r.1, buffer := r.2,
                 st := { s with trace := s.trace ++ [Event.parent_acquire_buffer] },
                 probed := [] }

/-! ## Release -/

/-- The function `gst_omx_buffer_pool_release_buffer (bpool, buffer)`, where `buffer` is
the position of the buffer in `pool->buffers`. -/
def gst_omx_buffer_pool_release_buffer (env : Env) (s : St) (buffer : Nat) : Run St :=
  match s.pool.component, s.pool.port with
  | true, some port =>
    if !s.pool.allocating && !s.pool.deactivated then
      match s.pool.buffers[buffer]? with
      | some (some buf) =>
        match buf.qdata with
        | none => Run.undef
        | some slot =>
          match port.buffers[slot]? with
          | some (some omx_buf) =>
            if port.port_def.eDir = OMX_DIRTYPE.OMX_DirOutput && !omx_buf.used then
              let r : Int × GstOMXPort := env.gst_omx_port_release_buffer s.trace port slot
              let trace1 : List Event := s.trace ++ [Event.port_release slot r.1]
              let trace2 : List Event :=
                if r.1 ≠ 0 then trace1 ++ [Event.element_error] else trace1
              Run.done { pool := { s.pool with port := some r.2 }, trace := trace2 }
            else if !omx_buf.used then
              if s.pool.element.no_copy == false then Run.abort
              else Run.done s
            else Run.done s
          | _ => Run.undef
      | _ => Run.undef
    else Run.done s
  | _, _ => Run.abort

/-! ## Start -/

/-- The locals of the export loop for plane `i`, read off the three arrays
(an entry outside an array counts as `0`). -/
def plane_request (env : Env) (base : Nat) (stride slice : List Int) (offset : List Nat)
    (i : Nat) : PlaneExport :=
  plane_export env.page_size base (offset.getD i 0) (stride.getD i 0) (slice.getD i 0)

/-- The memory manager answers the export requests of the planes `i`, `i + 1`,
... with `answers` (identifier and descriptor, one pair per plane), and then
fails the request of the plane that follows them. -/
def exports_then_fails (env : Env) (base : Nat) (stride slice : List Int) (offset : List Nat) :
    Nat → List Event → List (Int × Int) → Prop
  | i, trace, [] =>
    env.mmngr_export_start_in_user_ext trace
      (to_gsize (plane_request env base stride slice offset i).plane_size_ext)
      (plane_request env base stride slice offset i).phys_addr = none
  | i, trace, a :: rest =>
    env.mmngr_export_start_in_user_ext trace
      (to_gsize (plane_request env base stride slice offset i).plane_size_ext)
      (plane_request env base stride slice offset i).phys_addr = some a ∧
    exports_then_fails env base stride slice offset (i + 1)
      (trace ++ [Event.export_start (plane_request env base stride slice offset i).phys_addr
        (to_gsize (plane_request env base stride slice offset i).plane_size_ext) (some a)]) rest

/-! ## Concrete configurations -/

/-- A memory manager that always succeeds and numbers its identifiers and
descriptors by the length of the trace, a port that accepts every buffer, and
an all-zero default layout. -/
def example_env : Env :=
  { page_size := 4096,
    mmngr_export_start_in_user_ext :=
      fun trace _ _ => some (Int.ofNat trace.length + 7, Int.ofNat trace.length + 20),
    gst_omx_port_release_buffer := fun _ port _ => (0, port),
    gst_video_info_set_format := fun _ _ _ => ([0, 0, 0, 0], [0, 0, 0, 0]),
    parent_stop := fun _ => true,
    parent_acquire_buffer := fun _ => (GstFlowReturn.GST_FLOW_ERROR, none) }

/-- A decoder output pool in dmabuf mode over one NV12 slot of 1920 x 1080
whose decode result lies at the physical address `0x10000010`; the pool is
allocating and still empty. -/
def example_dmabuf_st : St :=
  { pool :=
      { element := { is_video_dec := true, is_video_enc := false, use_dmabuf := true,
                     no_copy := false },
        component := true,
        port := some
          { port_def := { eDir := OMX_DIRTYPE.OMX_DirOutput, nBufferCountActual := 1,
                          nBufferAlignment := 64, nStride := 1920, nSliceHeight := 1080 },
            buffers := [some { used := false, nAllocLen := 3110400, nFilledLen := 0,
                               nOffset := 0, pOutputPortPrivate := some 0x10000010 }] },
        caps := some 0,
        video_info := { format := GstVideoFormat.NV12, width := 1920, height := 1080,
                        n_planes := 2 },
        add_videometa := true, need_copy := false, buffers := [], other_pool := none,
        allocating := true, deactivated := false, current_buffer_index := 0,
        enc_buffer_index := 0, allocator := PoolAllocator.dmabuf, id_array := [] },
    trace := [] }

/-- The state after `gst_omx_buffer_pool_create_buffer_contain_dmabuf` has run on
`example_dmabuf_st` with the NV12 layout of a 1920 x 1080 frame. -/
def example_dmabuf_created_st : St :=
  match gst_omx_buffer_pool_create_buffer_contain_dmabuf example_env example_dmabuf_st
      0x10000010 [1920, 1920, 0, 0] [1080, 540, 0, 0] [0, 2073600, 0, 0] with
  | Run.done r => r.2
  | _ => example_dmabuf_st

/-- A decoder output pool whose single buffer was supplied by the borrowed
pool `5` and is still owned by it; the pool is allocating. -/
def example_borrowed_st : St :=
  { pool :=
      { element := { is_video_dec := true, is_video_enc := false, use_dmabuf := false,
                     no_copy := false },
        component := true,
        port := some
          { port_def := { eDir := OMX_DIRTYPE.OMX_DirOutput, nBufferCountActual := 1,
                          nBufferAlignment := 64, nStride := 1920, nSliceHeight := 1080 },
            buffers := [some { used := false, nAllocLen := 3110400, nFilledLen := 0,
                               nOffset := 0, pOutputPortPrivate := none }] },
        caps := some 0,
        video_info := { format := GstVideoFormat.NV12, width := 1920, height := 1080,
                        n_planes := 2 },
        add_videometa := false, need_copy := false,
        buffers := [some { pool := some 5,
                           memory := [{ flags := 0, mem_type := MemType.foreign,
                                        maxsize := 3110400, align := 0, offset := 0,
                                        size := 3110400, buf := none, fd := none }],
                           video_meta := none, qdata := none }],
        other_pool := some 5,
        allocating := true, deactivated := false, current_buffer_index := 0,
        enc_buffer_index := 0, allocator := PoolAllocator.omx, id_array := [] },
    trace := [] }

/-- A running pool on the input port of a video encoder with one slot and one
buffer associated with it; `no_copy` is the encoder's flag and `used` tells
whether the slot is in-flight. -/
def example_enc_input_st (no_copy used : Bool) : St :=
  { pool :=
      { element := { is_video_dec := false, is_video_enc := true, use_dmabuf := false,
                     no_copy := no_copy },
        component := true,
        port := some
          { port_def := { eDir := OMX_DIRTYPE.OMX_DirInput, nBufferCountActual := 1,
                          nBufferAlignment := 64, nStride := 1920, nSliceHeight := 1080 },
            buffers := [some { used := used, nAllocLen := 3110400, nFilledLen := 0,
                               nOffset := 0, pOutputPortPrivate := none }] },
        caps := some 0,
        video_info := { format := GstVideoFormat.NV12, width := 1920, height := 1080,
                        n_planes := 2 },
        add_videometa := true, need_copy := false,
        buffers := [some { pool := none, memory := [gst_memory_new_wrapped 0 3110400 0 0],
                           video_meta := none, qdata := some 0 }],
        other_pool := none,
        allocating := false, deactivated := false, current_buffer_index := 1,
        enc_buffer_index := 0, allocator := PoolAllocator.omx, id_array := [] },
    trace := [] }

/-- Number of planes of a format in GStreamer's format table, for the
formats handled by `gst_omx_buffer_pool_alloc_buffer` (`0` for the others). -/
def format_n_planes : GstVideoFormat → Nat
  | GstVideoFormat.I420 => 3
  | GstVideoFormat.NV12 => 2
  | GstVideoFormat.NV16 => 2
  | GstVideoFormat.OTHER => 0
  | _ => 1

/-- The slot behind the buffer at position `pos` of the pool, if the buffer,
its slot association and the slot all exist. -/
def slot_of_buffer (port : GstOMXPort) (buffers : List (Option GstBuffer)) (pos : Nat) :
    Option GstOMXBuffer :=
  match buffers[pos]? with
  | some (some buf) =>
    match buf.qdata with
    | some slot =>
      match port.buffers[slot]? with
      | some (some omx_buf) => some omx_buf
      | _ => none
    | none => none
  | _ => none

/-- A running decoder output pool (no dmabuf, no borrowed pool) over one slot
that holds `nFilledLen = 4096` bytes at `nOffset = 0`, with its buffer, a
direct OMX view of the slot, at position 0. -/
def example_output_st : St :=
  { pool :=
      { element := { is_video_dec := true, is_video_enc := false, use_dmabuf := false,
                     no_copy := false },
        component := true,
        port := some
          { port_def := { eDir := OMX_DIRTYPE.OMX_DirOutput, nBufferCountActual := 1,
                          nBufferAlignment := 64, nStride := 1920, nSliceHeight := 1080 },
            buffers := [some { used := false, nAllocLen := 3110400, nFilledLen := 4096,
                               nOffset := 0, pOutputPortPrivate := none }] },
        caps := some 0,
        video_info := { format := GstVideoFormat.NV12, width := 1920, height := 1080,
                        n_planes := 2 },
        add_videometa := true, need_copy := false,
        buffers := [some { pool := none,
                           memory := [{ flags := 16, mem_type := MemType.openmax,
                                        maxsize := 3110400, align := 63, offset := 0,
                                        size := 3110400, buf := some 0, fd := none }],
                           video_meta := none, qdata := some 0 }],
        other_pool := none,
        allocating := false, deactivated := false, current_buffer_index := 0,
        enc_buffer_index := 0, allocator := PoolAllocator.omx, id_array := [] },
    trace := [] }

/-- A memory manager that exports the first plane it is asked for, with the
identifier `id` and the descriptor 20, and fails every later request. -/
def example_failing_env (id : Int) : Env :=
  { example_env with
    mmngr_export_start_in_user_ext :=
      fun trace _ _ => if trace.length = 0 then some (id, 20) else none }

/-- A port of `n` slots of which exactly the first `busy` ones are in-flight. -/
def example_enc_port (n busy : Nat) : GstOMXPort :=
  { port_def := { eDir := OMX_DIRTYPE.OMX_DirInput, nBufferCountActual := n,
                  nBufferAlignment := 64, nStride := 1920, nSliceHeight := 1080 },
    buffers := (List.range n).map (fun i =>
      some { used := decide (i < busy), nAllocLen := 3110400, nFilledLen := 0,
             nOffset := 0, pOutputPortPrivate := none }) }

/-- The buffer array of a pool of `n` buffers, buffer `i` associated with slot `i`. -/
def example_enc_buffers (n : Nat) : List (Option GstBuffer) :=
  (List.range n).map (fun i =>
    some { pool := none, memory := [gst_memory_new_wrapped 0 3110400 0 0],
           video_meta := none, qdata := some i })

/-- A running pool on the input port of a video encoder with `n` slots, the
first `busy` of them in-flight, buffer `i` associated with slot `i`, and the
search cursor at `c`. -/
def example_enc_pool_st (n busy c : Nat) : St :=
  { pool :=
      { element := { is_video_dec := false, is_video_enc := true, use_dmabuf := false,
                     no_copy := true },
        component := true,
        port := some (example_enc_port n busy),
        caps := some 0,
        video_info := { format := GstVideoFormat.NV12, width := 1920, height := 1080,
                        n_planes := 2 },
        add_videometa := true, need_copy := false,
        buffers := example_enc_buffers n,
        other_pool := none,
        allocating := false, deactivated := false, current_buffer_index := (n : Int),
        enc_buffer_index := c, allocator := PoolAllocator.omx, id_array := [] },
    trace := [] }

/-! ## Machine integers: lemmas -/

theorem to_gint_of_range {x : Int} (h1 : -2 ^ 31 ≤ x) (h2 : x < 2 ^ 31) : to_gint x = x := by
  unfold to_gint
  omega

theorem gint_bits_of_nonneg {x : Int} (h1 : 0 ≤ x) (h2 : x < 2 ^ 32) :
    gint_bits x = x.toNat := by
  unfold gint_bits
  congr 1
  omega

theorem gint_bits_natCast {n : Nat} (h : n < 2 ^ 32) : gint_bits (n : Int) = n := by
  rw [gint_bits_of_nonneg (by omega) (by omega)]
  simp

theorem to_gsize_natCast {n : Nat} (h : n < 2 ^ 64) : to_gsize (n : Int) = n := by
  unfold to_gsize
  have : (n : Int) % 2 ^ 64 = n := by omega
  rw [this]
  simp

/-- Clearing the low `k` bits of a 32-bit pattern rounds it down to a multiple of `2 ^ k`. -/
theorem and_not_low_mask {x k : Nat} (hx : x < 2 ^ 32) (hk : k ≤ 32) :
    x &&& (2 ^ 32 - 1 - (2 ^ k - 1)) = x / 2 ^ k * 2 ^ k := by
  have hpk : 0 < 2 ^ k := Nat.pow_pos (by norm_num)
  have hle : 2 ^ k ≤ 2 ^ 32 := Nat.pow_le_pow_right (by norm_num) hk
  have e : 2 ^ 32 - 1 - (2 ^ k - 1) = 2 ^ 32 - ((2 ^ k - 1) + 1) := by omega
  rw [e]
  apply Nat.eq_of_testBit_eq
  intro i
  rw [Nat.testBit_and, Nat.testBit_two_pow_sub_succ (by omega), Nat.testBit_two_pow_sub_one,
    Nat.mul_comm, Nat.testBit_mul_pow_two]
  by_cases hik : i < k
  · simp [hik, Nat.not_le.mpr hik]
  · have hki : k ≤ i := Nat.le_of_not_lt hik
    simp only [hik, hki, decide_True, decide_False, Bool.not_false, Bool.and_true, Bool.true_and]
    rw [← Nat.shiftRight_eq_div_pow, Nat.testBit_shiftRight, Nat.add_sub_cancel' hki]
    by_cases hi : i < 32
    · simp [hi]
    · simp only [hi, decide_False, Bool.and_false]
      symm
      apply Nat.testBit_lt_two_pow
      exact lt_of_lt_of_le hx (Nat.pow_le_pow_right (by norm_num) (by omega))

/-- On operands for which nothing overflows, `GST_ROUND_UP_N` rounds up to a
multiple of the (power of two) alignment. -/
theorem gint_round_up {num : Int} {k : Nat} (hk : k ≤ 30) (h0 : 0 ≤ num)
    (h1 : num + (2 ^ k - 1) < 2 ^ 31) :
    GST_ROUND_UP_N num (2 ^ k) = (num + (2 ^ k - 1)) / 2 ^ k * 2 ^ k := by
  have hpk : (0 : Int) < 2 ^ k := by positivity
  have hle : (2 : Int) ^ k ≤ 2 ^ 30 := pow_le_pow_right₀ (by norm_num) hk
  have hleN : (2 : Nat) ^ k ≤ 2 ^ 30 := Nat.pow_le_pow_right (by norm_num) hk
  have hpkN : 0 < 2 ^ k := Nat.pow_pos (by norm_num)
  unfold GST_ROUND_UP_N gint_and gint_not
  rw [to_gint_of_range (x := 2 ^ k - 1) (by omega) (by omega),
    to_gint_of_range (x := num + (2 ^ k - 1)) (by omega) (by omega)]
  obtain ⟨n, rfl⟩ := Int.eq_ofNat_of_zero_le h0
  have e1 : ((n : Int) + (2 ^ k - 1)) = ((n + (2 ^ k - 1) : Nat) : Int) := by
    push_cast [Nat.cast_sub hpkN]; ring
  have e2 : ((2 : Int) ^ k - 1) = ((2 ^ k - 1 : Nat) : Int) := by
    push_cast [Nat.cast_sub hpkN]; ring
  rw [e1] at h1 ⊢
  rw [e2]
  have hn : n + (2 ^ k - 1) < 2 ^ 31 := by exact_mod_cast h1
  rw [gint_bits_natCast (by omega), gint_bits_natCast (by omega)]
  have hb : 2 ^ 32 - 1 - (2 ^ k - 1) < 2 ^ 32 := by omega
  rw [show Int.ofNat (2 ^ 32 - 1 - (2 ^ k - 1)) = ((2 ^ 32 - 1 - (2 ^ k - 1) : Nat) : Int) from rfl]
  have hm : (2 : Int) ^ 31 ≤ ((2 ^ 32 - 1 - (2 ^ k - 1) : Nat) : Int) := by
    have : 2 ^ 31 ≤ 2 ^ 32 - 1 - (2 ^ k - 1) := by omega
    exact_mod_cast this
  have hm2 : ((2 ^ 32 - 1 - (2 ^ k - 1) : Nat) : Int) < 2 ^ 32 := by exact_mod_cast hb
  have e3 : to_gint ((2 ^ 32 - 1 - (2 ^ k - 1) : Nat) : Int)
      = ((2 ^ 32 - 1 - (2 ^ k - 1) : Nat) : Int) - 2 ^ 32 := by
    unfold to_gint; omega
  rw [e3]
  have e4 : gint_bits (((2 ^ 32 - 1 - (2 ^ k - 1) : Nat) : Int) - 2 ^ 32)
      = 2 ^ 32 - 1 - (2 ^ k - 1) := by
    unfold gint_bits
    have : (((2 ^ 32 - 1 - (2 ^ k - 1) : Nat) : Int) - 2 ^ 32) % 2 ^ 32
        = ((2 ^ 32 - 1 - (2 ^ k - 1) : Nat) : Int) := by omega
    rw [this]; simp
  rw [e4, and_not_low_mask (by omega) (by omega)]
  have hdiv : (n + (2 ^ k - 1)) / 2 ^ k * 2 ^ k ≤ n + (2 ^ k - 1) := Nat.div_mul_le_self _ _
  rw [show Int.ofNat ((n + (2 ^ k - 1)) / 2 ^ k * 2 ^ k)
      = (((n + (2 ^ k - 1)) / 2 ^ k * 2 ^ k : Nat) : Int) from rfl]
  rw [to_gint_of_range (by omega) (by omega)]
  push_cast
  rfl

/-- The bit test `(m + 1) & m == 0` recognises exactly the `m` with `m + 1` a power of two. -/
theorem succ_and_self_eq_zero_iff (m : Nat) : (m + 1) &&& m = 0 ↔ ∃ k, m + 1 = 2 ^ k := by
  constructor
  · induction m using Nat.strong_induction_on with
    | _ m ih =>
      intro h
      have h2 : (m + 1) / 2 &&& m / 2 = 0 := by
        rw [← Nat.and_div_two, h]
      rcases Nat.even_or_odd' m with ⟨q, hq | hq⟩
      · have e1 : (m + 1) / 2 = q := by omega
        have e2 : m / 2 = q := by omega
        rw [e1, e2, Nat.and_self] at h2
        exact ⟨0, by omega⟩
      · have e1 : (m + 1) / 2 = q + 1 := by omega
        have e2 : m / 2 = q := by omega
        rw [e1, e2] at h2
        obtain ⟨j, hj⟩ := ih q (by omega) h2
        exact ⟨j + 1, by rw [pow_succ]; omega⟩
  · rintro ⟨k, hk⟩
    have : m = 2 ^ k - 1 := by omega
    rw [hk, this, Nat.and_pow_two_sub_one_eq_mod, Nat.mod_self]

/-- The alignment conversion on the values that fit a `gint`. -/
theorem alloc_align_of_lt {a : Nat} (h : a < 2 ^ 31) :
    ((∃ k, a = 2 ^ k) → gst_omx_memory_allocator_alloc_align a = (a : Int) - 1) ∧
    ((¬ ∃ k, a = 2 ^ k) → gst_omx_memory_allocator_alloc_align a = 0) := by
  unfold gst_omx_memory_allocator_alloc_align
  have e0 : to_gint (Int.ofNat a) = (a : Int) := to_gint_of_range (by simp; omega) (by simp; omega)
  simp only [e0]
  rcases Nat.eq_zero_or_pos a with rfl | hpos
  · have hn : ¬ ∃ k, 0 = 2 ^ k := by
      rintro ⟨k, hk⟩
      have : 0 < 2 ^ k := Nat.pow_pos (by norm_num)
      omega
    refine ⟨fun hp => absurd hp hn, fun _ => ?_⟩
    decide
  · obtain ⟨m, rfl⟩ : ∃ m, a = m + 1 := ⟨a - 1, by omega⟩
    have hgt : ((m + 1 : Nat) : Int) > 0 := by omega
    simp only [hgt, if_true]
    have e1 : to_gint (((m + 1 : Nat) : Int) - 1) = (m : Int) := by
      rw [to_gint_of_range (by omega) (by omega)]; omega
    have e2 : to_gint ((m : Int) + 1) = ((m + 1 : Nat) : Int) := by
      rw [to_gint_of_range (by omega) (by omega)]; omega
    rw [e1, e2]
    unfold gint_and
    rw [gint_bits_natCast (by omega), gint_bits_natCast (by omega)]
    have hle : (m + 1) &&& m ≤ m := Nat.and_le_right
    have e3 : to_gint (Int.ofNat ((m + 1) &&& m)) = (((m + 1) &&& m : Nat) : Int) := by
      apply to_gint_of_range
      · have : (0 : Int) ≤ (((m + 1) &&& m : Nat) : Int) := Int.ofNat_nonneg _
        show -2 ^ 31 ≤ (((m + 1) &&& m : Nat) : Int)
        omega
      · show (((m + 1) &&& m : Nat) : Int) < 2 ^ 31
        omega
    rw [e3]
    constructor
    · intro hp
      have hz : (m + 1) &&& m = 0 := (succ_and_self_eq_zero_iff m).mpr hp
      simp [hz]
    · intro hp
      have hz : (m + 1) &&& m ≠ 0 := fun h0 => hp ((succ_and_self_eq_zero_iff m).mp h0)
      have hz2 : (((m + 1) &&& m : Nat) : Int) ≠ 0 := by exact_mod_cast hz
      simp [hz2]

/-! ## The dmabuf export: lemmas -/

/-- The per-plane locals when nothing overflows. -/
theorem plane_export_spec {k : Nat} (hk : k ≤ 30) (base o : Nat) (st sl : Int)
    (h0 : 0 ≤ st) (h1 : 0 ≤ sl)
    (hfit : st * sl + (((base + o) % 2 ^ k : Nat) : Int) + (2 ^ k - 1) < 2 ^ 31) :
    (plane_export (2 ^ k) base o st sl).phys_addr = (base + o) % 2 ^ 32 ∧
    (plane_export (2 ^ k) base o st sl).page_offset = (((base + o) % 2 ^ k : Nat) : Int) ∧
    (plane_export (2 ^ k) base o st sl).plane_size = st * sl ∧
    (plane_export (2 ^ k) base o st sl).plane_size_ext
      = (st * sl + (((base + o) % 2 ^ k : Nat) : Int) + (2 ^ k - 1)) / 2 ^ k * 2 ^ k := by
  have hpk : (0 : Int) < 2 ^ k := by positivity
  have hle : (2 : Int) ^ k ≤ 2 ^ 30 := pow_le_pow_right₀ (by norm_num) hk
  have hleN : (2 : Nat) ^ k ≤ 2 ^ 30 := Nat.pow_le_pow_right (by norm_num) hk
  have hpkN : 0 < 2 ^ k := Nat.pow_pos (by norm_num)
  have hmul : 0 ≤ st * sl := Int.mul_nonneg h0 h1
  have hmod : (base + o) % 2 ^ k < 2 ^ k := Nat.mod_lt _ hpkN
  have hpo : (plane_export (2 ^ k) base o st sl).page_offset
      = (((base + o) % 2 ^ k : Nat) : Int) := by
    simp only [plane_export]
    rw [to_gint_of_range (x := 2 ^ k - 1) (by omega) (by omega)]
    have e2 : ((2 : Int) ^ k - 1) = ((2 ^ k - 1 : Nat) : Int) := by
      push_cast [Nat.cast_sub hpkN]; ring
    rw [e2, gint_bits_natCast (by omega), Nat.and_pow_two_sub_one_eq_mod]
    have hdvd : 2 ^ k ∣ 2 ^ 32 := Nat.pow_dvd_pow 2 (by omega)
    rw [to_guint, Nat.mod_mod_of_dvd _ hdvd]
    apply to_gint_of_range
    · show -2 ^ 31 ≤ (((base + o) % 2 ^ k : Nat) : Int)
      omega
    · show (((base + o) % 2 ^ k : Nat) : Int) < 2 ^ 31
      omega
  have hps : (plane_export (2 ^ k) base o st sl).plane_size = st * sl := by
    simp only [plane_export]
    exact to_gint_of_range (by omega) (by omega)
  refine ⟨rfl, hpo, hps, ?_⟩
  have hext : (plane_export (2 ^ k) base o st sl).plane_size_ext
      = GST_ROUND_UP_N (to_gint ((plane_export (2 ^ k) base o st sl).plane_size
          + (plane_export (2 ^ k) base o st sl).page_offset)) (2 ^ k) := rfl
  rw [hext, hpo, hps, to_gint_of_range (by omega) (by omega),
    gint_round_up hk (by omega) (by omega)]

/-- The least multiple of `p` that is at least `n`. -/
theorem round_up_least {n p : Nat} (hp : 0 < p) :
    p ∣ (n + (p - 1)) / p * p ∧ n ≤ (n + (p - 1)) / p * p ∧
    ∀ m, p ∣ m → n ≤ m → (n + (p - 1)) / p * p ≤ m := by
  refine ⟨Dvd.intro_left _ rfl, ?_, ?_⟩
  · have h1 := Nat.div_add_mod (n + (p - 1)) p
    have h2 := Nat.mod_lt (n + (p - 1)) hp
    rw [Nat.mul_comm] at h1
    omega
  · rintro m ⟨c, rfl⟩ hn
    rw [Nat.mul_comm p c]
    apply Nat.mul_le_mul_right
    rw [Nat.div_le_iff_le_mul_add_pred hp]
    rw [Nat.mul_comm] at hn
    have : c * p = p * c := Nat.mul_comm _ _
    omega

/-- The memory that the export loop appends for a plane. -/
theorem dmabuf_plane_loop_done (env : Env) (allocator : PoolAllocator) (base : Nat)
    (stride slice : List Int) (offset : List Nat) :
    ∀ (remaining i : Nat) (mems : List GstMemory) (ids : List Int) (trace : List Event)
      (res : DmabufPlanes) (ms : List GstMemory),
      dmabuf_plane_loop env allocator base stride slice offset remaining i mems ids trace
        = Run.done res →
      res.memory = some ms →
      ∃ (tm : List GstMemory) (tt : List Event),
        ms = mems ++ tm ∧ res.trace = trace ++ tt ∧
        tm.length = remaining ∧ tt.length = remaining ∧
        ∀ j, j < remaining →
          ∃ (o : Nat) (st sl : Int) (id fd : Int),
            offset[i + j]? = some o ∧ stride[i + j]? = some st ∧ slice[i + j]? = some sl ∧
            tm[j]? = some
              { flags := 0, mem_type := MemType.dmabuf,
                maxsize := to_gsize (plane_export env.page_size base o st sl).plane_size_ext,
                align := 0,
                offset := to_gsize (plane_export env.page_size base o st sl).page_offset,
                size := to_gsize (plane_export env.page_size base o st sl).plane_size,
                buf := none, fd := some fd } ∧
            tt[j]? = some (Event.export_start (plane_export env.page_size base o st sl).phys_addr
              (to_gsize (plane_export env.page_size base o st sl).plane_size_ext)
              (some (id, fd))) := by
  intro remaining
  induction remaining with
  | zero =>
    intro i mems ids trace res ms h hm
    simp only [dmabuf_plane_loop, Run.done.injEq] at h
    subst h
    simp only [Option.some.injEq] at hm
    subst hm
    exact ⟨[], [], by simp, by simp, rfl, rfl, fun j hj => absurd hj (Nat.not_lt_zero j)⟩
  | succ r ih =>
    intro i mems ids trace res ms h hm
    rw [dmabuf_plane_loop] at h
    cases ho : offset[i]? with
    | none => simp [ho] at h
    | some o =>
      cases hst : stride[i]? with
      | none => simp [ho, hst] at h
      | some st =>
        cases hsl : slice[i]? with
        | none => simp [ho, hst, hsl] at h
        | some sl =>
          simp only [ho, hst, hsl] at h
          cases hres : env.mmngr_export_start_in_user_ext trace
              (to_gsize (plane_export env.page_size base o st sl).plane_size_ext)
              (plane_export env.page_size base o st sl).phys_addr with
          | none =>
            simp only [hres, Run.done.injEq] at h
            subst h
            simp at hm
          | some a =>
            obtain ⟨id, fd⟩ := a
            simp only [hres] at h
            cases allocator with
            | omx => simp [gst_dmabuf_allocator_alloc] at h
            | dmabuf =>
              simp only [gst_dmabuf_allocator_alloc] at h
              obtain ⟨tm, tt, h1, h2, h3, h4, h5⟩ := ih _ _ _ _ _ _ h hm
              refine ⟨(
                { flags := 0, mem_type := MemType.dmabuf,
                  maxsize := to_gsize (plane_export env.page_size base o st sl).plane_size_ext,
                  align := 0,
                  offset := to_gsize (plane_export env.page_size base o st sl).page_offset,
                  size := to_gsize (plane_export env.page_size base o st sl).plane_size,
                  buf := none, fd := some fd } : GstMemory) :: tm,
                Event.export_start (plane_export env.page_size base o st sl).phys_addr
                  (to_gsize (plane_export env.page_size base o st sl).plane_size_ext)
                  (some (id, fd)) :: tt, ?_, ?_, by simp [h3], by simp [h4], ?_⟩
              · rw [h1]; simp
              · rw [h2]; simp
              · intro j hj
                cases j with
                | zero =>
                  exact ⟨o, st, sl, id, fd, by simpa using ho, by simpa using hst,
                    by simpa using hsl, by simp, by simp⟩
                | succ j =>
                  obtain ⟨o2, st2, sl2, id2, fd2, g1, g2, g3, g4, g5⟩ := h5 j (by omega)
                  have e : i + (j + 1) = i + 1 + j := by omega
                  exact ⟨o2, st2, sl2, id2, fd2, by rw [e]; exact g1, by rw [e]; exact g2,
                    by rw [e]; exact g3, by simpa using g4, by simpa using g5⟩

/-- The offset to the page boundary is the physical address modulo the page size. -/
theorem plane_export_page_offset {k : Nat} (hk : k ≤ 30) (base o : Nat) (st sl : Int) :
    (plane_export (2 ^ k) base o st sl).page_offset
      = (((base + o) % 2 ^ k : Nat) : Int) := by
  have hpk : (0 : Int) < 2 ^ k := by positivity
  have hle : (2 : Int) ^ k ≤ 2 ^ 30 := pow_le_pow_right₀ (by norm_num) hk
  have hleN : (2 : Nat) ^ k ≤ 2 ^ 30 := Nat.pow_le_pow_right (by norm_num) hk
  have hpkN : 0 < 2 ^ k := Nat.pow_pos (by norm_num)
  have hmod : (base + o) % 2 ^ k < 2 ^ k := Nat.mod_lt _ hpkN
  simp only [plane_export]
  rw [to_gint_of_range (x := 2 ^ k - 1) (by omega) (by omega)]
  have e2 : ((2 : Int) ^ k - 1) = ((2 ^ k - 1 : Nat) : Int) := by
    push_cast [Nat.cast_sub hpkN]; ring
  rw [e2, gint_bits_natCast (by omega), Nat.and_pow_two_sub_one_eq_mod]
  have hdvd : 2 ^ k ∣ 2 ^ 32 := Nat.pow_dvd_pow 2 (by omega)
  rw [to_guint, Nat.mod_mod_of_dvd _ hdvd]
  apply to_gint_of_range
  · show -2 ^ 31 ≤ (((base + o) % 2 ^ k : Nat) : Int)
    omega
  · show (((base + o) % 2 ^ k : Nat) : Int) < 2 ^ 31
    omega

/-- Every request that the export loop sends to the memory manager carries
the physical address and the extended size of its plane. -/
theorem dmabuf_plane_loop_trace (env : Env) (allocator : PoolAllocator) (base : Nat)
    (stride slice : List Int) (offset : List Nat) :
    ∀ (remaining i : Nat) (mems : List GstMemory) (ids : List Int) (trace : List Event)
      (res : DmabufPlanes),
      dmabuf_plane_loop env allocator base stride slice offset remaining i mems ids trace
        = Run.done res →
      ∃ (tt : List Event),
        res.trace = trace ++ tt ∧ tt.length ≤ remaining ∧
        (res.memory.isSome → tt.length = remaining) ∧
        ∀ j, j < tt.length →
          ∃ (o : Nat) (st sl : Int) (r : Option (Int × Int)),
            offset[i + j]? = some o ∧ stride[i + j]? = some st ∧ slice[i + j]? = some sl ∧
            tt[j]? = some (Event.export_start (plane_export env.page_size base o st sl).phys_addr
              (to_gsize (plane_export env.page_size base o st sl).plane_size_ext) r) := by
  intro remaining
  induction remaining with
  | zero =>
    intro i mems ids trace res h
    simp only [dmabuf_plane_loop, Run.done.injEq] at h
    subst h
    exact ⟨[], by simp, by simp, by simp, fun j hj => absurd hj (Nat.not_lt_zero j)⟩
  | succ r ih =>
    intro i mems ids trace res h
    rw [dmabuf_plane_loop] at h
    cases ho : offset[i]? with
    | none => simp [ho] at h
    | some o =>
      cases hst : stride[i]? with
      | none => simp [ho, hst] at h
      | some st =>
        cases hsl : slice[i]? with
        | none => simp [ho, hst, hsl] at h
        | some sl =>
          simp only [ho, hst, hsl] at h
          cases hres : env.mmngr_export_start_in_user_ext trace
              (to_gsize (plane_export env.page_size base o st sl).plane_size_ext)
              (plane_export env.page_size base o st sl).phys_addr with
          | none =>
            simp only [hres, Run.done.injEq] at h
            subst h
            refine ⟨[Event.export_start (plane_export env.page_size base o st sl).phys_addr
              (to_gsize (plane_export env.page_size base o st sl).plane_size_ext) none],
              rfl, by simp, by simp, ?_⟩
            intro j hj
            have hj0 : j = 0 := by simpa using hj
            subst hj0
            exact ⟨o, st, sl, none, by simpa using ho, by simpa using hst,
              by simpa using hsl, by simp⟩
          | some a =>
            simp only [hres] at h
            cases allocator with
            | omx => simp [gst_dmabuf_allocator_alloc] at h
            | dmabuf =>
              simp only [gst_dmabuf_allocator_alloc] at h
              obtain ⟨tt, h2, h3, h4, h5⟩ := ih _ _ _ _ _ h
              refine ⟨Event.export_start (plane_export env.page_size base o st sl).phys_addr
                  (to_gsize (plane_export env.page_size base o st sl).plane_size_ext)
                  (some a) :: tt, ?_, by simp; omega, ?_, ?_⟩
              · rw [h2]; simp
              · intro hs
                simp [h4 hs]
              · intro j hj
                cases j with
                | zero =>
                  exact ⟨o, st, sl, some a, by simpa using ho, by simpa using hst,
                    by simpa using hsl, by simp⟩
                | succ j =>
                  obtain ⟨o2, st2, sl2, r2, g1, g2, g3, g5⟩ :=
                    h5 j (by simp at hj; omega)
                  have e : i + (j + 1) = i + 1 + j := by omega
                  exact ⟨o2, st2, sl2, r2, by rw [e]; exact g1, by rw [e]; exact g2,
                    by rw [e]; exact g3, by simpa using g5⟩

/-- A successful `gst_omx_buffer_pool_create_buffer_contain_dmabuf` went through the
whole plane loop and appended the new buffer to the array. -/
theorem create_dmabuf_done {env : Env} {s s' : St} {base : Nat} {stride slice : List Int}
    {offset : List Nat} {pos : Nat}
    (h : gst_omx_buffer_pool_create_buffer_contain_dmabuf env s base stride slice offset
      = Run.done (some pos, s')) :
    ∃ (res : DmabufPlanes) (ms : List GstMemory) (buf : GstBuffer),
      dmabuf_plane_loop env s.pool.allocator base stride slice offset
        s.pool.video_info.n_planes 0 [] s.pool.id_array s.trace = Run.done res ∧
      res.memory = some ms ∧ buf.memory = ms ∧ buf.qdata = none ∧
      pos = s.pool.buffers.length ∧
      s'.pool = { s.pool with id_array := res.id_array,
                              buffers := s.pool.buffers ++ [some buf] } ∧
      s'.trace = res.trace := by
  unfold gst_omx_buffer_pool_create_buffer_contain_dmabuf at h
  cases hl : dmabuf_plane_loop env s.pool.allocator base stride slice offset
      s.pool.video_info.n_planes 0 [] s.pool.id_array s.trace with
  | done res =>
    simp only [hl] at h
    cases hm : res.memory with
    | none => simp [hm] at h
    | some ms =>
      simp only [hm, Run.done.injEq, Prod.mk.injEq, Option.some.injEq] at h
      obtain ⟨h1, h2⟩ := h
      subst h2
      exact ⟨res, ms, _, rfl, hm, rfl, rfl, h1.symm, rfl, rfl⟩
  | abort => simp [hl] at h
  | undef => simp [hl] at h
  | timeout => simp [hl] at h

/-- The `gsize` values stored in the memory of a plane when nothing overflows. -/
theorem plane_export_gsize {k : Nat} (hk : k ≤ 30) (base o : Nat) (st sl : Int)
    (h0 : 0 ≤ st) (h1 : 0 ≤ sl)
    (hfit : st * sl + (((base + o) % 2 ^ k : Nat) : Int) + (2 ^ k - 1) < 2 ^ 31) :
    to_gsize (plane_export (2 ^ k) base o st sl).page_offset = (base + o) % 2 ^ k ∧
    to_gsize (plane_export (2 ^ k) base o st sl).plane_size = (st * sl).toNat ∧
    to_gsize (plane_export (2 ^ k) base o st sl).plane_size_ext
      = ((st * sl).toNat + (base + o) % 2 ^ k + (2 ^ k - 1)) / 2 ^ k * 2 ^ k := by
  obtain ⟨-, hpo, hps, hext⟩ := plane_export_spec hk base o st sl h0 h1 hfit
  have hmul : 0 ≤ st * sl := Int.mul_nonneg h0 h1
  have hpkN : 0 < 2 ^ k := Nat.pow_pos (by norm_num)
  have hleN : (2 : Nat) ^ k ≤ 2 ^ 30 := Nat.pow_le_pow_right (by norm_num) hk
  obtain ⟨n, hn⟩ := Int.eq_ofNat_of_zero_le hmul
  have htn : (st * sl).toNat = n := by rw [hn]; simp
  have e : ((n : Int) + (((base + o) % 2 ^ k : Nat) : Int) + (2 ^ k - 1))
      = ((n + (base + o) % 2 ^ k + (2 ^ k - 1) : Nat) : Int) := by
    push_cast [Nat.cast_sub hpkN]; ring
  have hN : n + (base + o) % 2 ^ k + (2 ^ k - 1) < 2 ^ 31 := by
    rw [hn, e] at hfit
    exact_mod_cast hfit
  have hdiv := Nat.div_mul_le_self (n + (base + o) % 2 ^ k + (2 ^ k - 1)) (2 ^ k)
  have hmod : (base + o) % 2 ^ k < 2 ^ k := Nat.mod_lt _ hpkN
  rw [htn]
  refine ⟨?_, ?_, ?_⟩
  · rw [hpo]; exact to_gsize_natCast (by omega)
  · rw [hps, hn]; exact to_gsize_natCast (by omega)
  · rw [hext, hn, e]
    have e2 : (((n + (base + o) % 2 ^ k + (2 ^ k - 1) : Nat) : Int)) / 2 ^ k * 2 ^ k
        = (((n + (base + o) % 2 ^ k + (2 ^ k - 1)) / 2 ^ k * 2 ^ k : Nat) : Int) := by
      push_cast; rfl
    rw [e2]
    exact to_gsize_natCast (lt_of_le_of_lt hdiv (lt_trans hN (by norm_num)))

/-- C1 (amended).  In a run of `gst_omx_buffer_pool_create_buffer_contain_dmabuf` that
returns a buffer, with a page size `2 ^ k` that fits a `gint`, take a plane `i`
below the plane count with non-negative stride and slice height such that
`stride * slice + page_offset + (page_size - 1)` stays below `2 ^ 31`.  Then
`page_offset` is the physical address `base + offset[i]` modulo the page size,
`plane_size` is `stride * slice`, the length `len` requested from the memory
manager is the least multiple of the page size that is at least
`plane_size + page_offset`, and memory `i` of the new buffer has
`offset = page_offset` and `size = plane_size`, so `offset + size ≤ len`. -/
theorem dmabuf_plane_region (env : Env) (s s' : St) (base : Nat) (stride slice : List Int)
    (offset : List Nat) (pos k i o : Nat) (st sl : Int)
    (hk : k ≤ 30) (hpage : env.page_size = 2 ^ k)
    (hrun : gst_omx_buffer_pool_create_buffer_contain_dmabuf env s base stride slice offset
      = Run.done (some pos, s'))
    (hi : i < s.pool.video_info.n_planes)
    (ho : offset[i]? = some o) (hst : stride[i]? = some st) (hsl : slice[i]? = some sl)
    (h0 : 0 ≤ st) (h1 : 0 ≤ sl)
    (hfit : st * sl + (((base + o) % 2 ^ k : Nat) : Int) + (2 ^ k - 1) < 2 ^ 31) :
    (plane_export env.page_size base o st sl).page_offset = (((base + o) % 2 ^ k : Nat) : Int) ∧
    (plane_export env.page_size base o st sl).plane_size = st * sl ∧
    ∃ (buf : GstBuffer) (mem : GstMemory) (id fd : Int) (len : Nat),
      s'.pool.buffers[pos]? = some (some buf) ∧ buf.memory[i]? = some mem ∧
      s'.trace[s.trace.length + i]?
        = some (Event.export_start (to_guint (base + o)) len (some (id, fd))) ∧
      2 ^ k ∣ len ∧ (st * sl).toNat + (base + o) % 2 ^ k ≤ len ∧
      (∀ m, 2 ^ k ∣ m → (st * sl).toNat + (base + o) % 2 ^ k ≤ m → len ≤ m) ∧
      mem.offset = (base + o) % 2 ^ k ∧ mem.size = (st * sl).toNat ∧
      mem.offset + mem.size ≤ len := by
  obtain ⟨hphys, hpo, hps, -⟩ := plane_export_spec hk base o st sl h0 h1 hfit
  obtain ⟨hoff, hsize, hsz⟩ := plane_export_gsize hk base o st sl h0 h1 hfit
  rw [hpage]
  refine ⟨hpo, hps, ?_⟩
  obtain ⟨res, ms, buf, hloop, hmem, hbm, -, hpos, hpool, htrace⟩ := create_dmabuf_done hrun
  obtain ⟨tm, tt, e1, e2, -, -, hall⟩ :=
    dmabuf_plane_loop_done env _ base stride slice offset _ _ _ _ _ _ _ hloop hmem
  obtain ⟨o2, st2, sl2, id, fd, g1, g2, g3, g4, g5⟩ := hall i hi
  rw [Nat.zero_add] at g1 g2 g3
  rw [ho] at g1; rw [hst] at g2; rw [hsl] at g3
  simp only [Option.some.injEq] at g1 g2 g3
  subst g1 g2 g3
  rw [hpage, hsz, hoff, hsize] at g4
  rw [hpage, hsz, hphys] at g5
  have hpkN : 0 < 2 ^ k := Nat.pow_pos (by norm_num)
  obtain ⟨r1, r2, r3⟩ := round_up_least (n := (st * sl).toNat + (base + o) % 2 ^ k) hpkN
  have hb : s'.pool.buffers[pos]? = some (some buf) := by
    rw [hpool, hpos]; simp
  have hm : buf.memory[i]? = some
      ({ flags := 0, mem_type := MemType.dmabuf,
         maxsize := ((st * sl).toNat + (base + o) % 2 ^ k + (2 ^ k - 1)) / 2 ^ k * 2 ^ k,
         align := 0, offset := (base + o) % 2 ^ k, size := (st * sl).toNat,
         buf := none, fd := some fd } : GstMemory) := by
    rw [hbm, e1]; simpa using g4
  have ht : s'.trace[s.trace.length + i]? = some (Event.export_start (to_guint (base + o))
      (((st * sl).toNat + (base + o) % 2 ^ k + (2 ^ k - 1)) / 2 ^ k * 2 ^ k)
      (some (id, fd))) := by
    rw [htrace, e2, List.getElem?_append_right (by omega)]
    simpa [to_guint] using g5
  have hle : (base + o) % 2 ^ k + (st * sl).toNat ≤ ((st * sl).toNat + (base + o) % 2 ^ k + (2 ^ k - 1)) / 2 ^ k * 2 ^ k := by
    rw [Nat.add_comm]; exact r2
  exact ⟨buf, _, id, fd, _, hb, hm, ht, r1, r2, r3, rfl, rfl, hle⟩

/-- C6 (amended).  In every run of `gst_omx_buffer_pool_create_buffer_contain_dmabuf`
that returns, the requests sent to the memory manager are, plane by plane,
for the physical address `phys = base + offset[i]` (as a `guint`) itself and
for the extended plane size; with a page size `2 ^ k` that address is a
multiple of the page size exactly when `page_offset` is zero.  A run that
returns a buffer has sent one request for every plane. -/
theorem export_request_address (env : Env) (s s' : St) (r : Option Nat) (base : Nat)
    (stride slice : List Int) (offset : List Nat) (k : Nat)
    (hk : k ≤ 30) (hpage : env.page_size = 2 ^ k)
    (hrun : gst_omx_buffer_pool_create_buffer_contain_dmabuf env s base stride slice offset
      = Run.done (r, s')) :
    ∃ (tt : List Event),
      s'.trace = s.trace ++ tt ∧ tt.length ≤ s.pool.video_info.n_planes ∧
      (r.isSome → tt.length = s.pool.video_info.n_planes) ∧
      ∀ j, j < tt.length →
        ∃ (o : Nat) (st sl : Int) (res : Option (Int × Int)),
          offset[j]? = some o ∧ stride[j]? = some st ∧ slice[j]? = some sl ∧
          tt[j]? = some (Event.export_start (to_guint (base + o))
            (to_gsize (plane_export env.page_size base o st sl).plane_size_ext) res) ∧
          (2 ^ k ∣ to_guint (base + o)
            ↔ (plane_export env.page_size base o st sl).page_offset = 0) := by
  unfold gst_omx_buffer_pool_create_buffer_contain_dmabuf at hrun
  cases hl : dmabuf_plane_loop env s.pool.allocator base stride slice offset
      s.pool.video_info.n_planes 0 [] s.pool.id_array s.trace with
  | done res =>
    obtain ⟨tt, h2, h3, h4, h5⟩ := dmabuf_plane_loop_trace env _ base stride slice offset
      _ _ _ _ _ _ hl
    have htr : s'.trace = res.trace ∧ (r.isSome → res.memory.isSome) := by
      simp only [hl] at hrun
      cases hm : res.memory with
      | none =>
        simp only [hm, Run.done.injEq, Prod.mk.injEq] at hrun
        obtain ⟨h1, h2⟩ := hrun
        subst h1 h2
        simp
      | some ms =>
        simp only [hm, Run.done.injEq, Prod.mk.injEq] at hrun
        obtain ⟨h1, h2⟩ := hrun
        subst h1 h2
        simp
    refine ⟨tt, by rw [htr.1, h2], h3, fun hr => h4 (htr.2 hr), ?_⟩
    intro j hj
    obtain ⟨o, st, sl, res2, g1, g2, g3, g5⟩ := h5 j hj
    rw [Nat.zero_add] at g1 g2 g3
    refine ⟨o, st, sl, res2, g1, g2, g3, g5, ?_⟩
    rw [hpage, plane_export_page_offset hk]
    have hdvd : 2 ^ k ∣ 2 ^ 32 := Nat.pow_dvd_pow 2 (by omega)
    rw [to_guint, Nat.dvd_iff_mod_eq_zero, Nat.mod_mod_of_dvd _ hdvd]
    exact ⟨fun h => by exact_mod_cast h, fun h => by exact_mod_cast h⟩
  | abort => simp [hl] at hrun
  | undef => simp [hl] at hrun
  | timeout => simp [hl] at hrun

/-- Witness of `dmabuf_plane_region`: the plane of stride 1920 and slice
height 1080 at the physical address `0x10000010` with pages of 4096 bytes is
exported with length 2076672 and its memory has offset 16 and size 2073600. -/
theorem dmabuf_plane_region_witness :
    (plane_export example_env.page_size 0x10000010 0 1920 1080).page_offset = 16 ∧
    (plane_export example_env.page_size 0x10000010 0 1920 1080).plane_size = 2073600 ∧
    ∃ (buf : GstBuffer) (mem : GstMemory),
      example_dmabuf_created_st.pool.buffers[0]? = some (some buf) ∧
      buf.memory[0]? = some mem ∧
      example_dmabuf_created_st.trace[0]?
        = some (Event.export_start 0x10000010 2076672 (some (7, 20))) ∧
      mem.offset = 16 ∧ mem.size = 2073600 ∧ mem.offset + mem.size ≤ 2076672 := by
  obtain ⟨h1, h2, buf, mem, id, fd, len, h3, h4, h5, -, -, -, h6, h7, h8⟩ :=
    dmabuf_plane_region example_env example_dmabuf_st example_dmabuf_created_st 0x10000010
      [1920, 1920, 0, 0] [1080, 540, 0, 0] [0, 2073600, 0, 0] 0 12 0 0 1920 1080
      (by decide) rfl (by decide) (by decide) rfl rfl rfl (by decide) (by decide) (by decide)
  have ht : example_dmabuf_created_st.trace[0]?
      = some (Event.export_start 0x10000010 2076672 (some (7, 20))) := by decide
  have hlen : len = 2076672 := by
    have h5b : example_dmabuf_created_st.trace[0]?
        = some (Event.export_start (to_guint (268435472 + 0)) len (some (id, fd))) := h5
    rw [ht] at h5b
    simp only [Option.some.injEq, Event.export_start.injEq] at h5b
    exact h5b.2.1.symm
  subst hlen
  exact ⟨h1, h2, buf, mem, h3, h4, ht, h6, h7, h8⟩

/-- Counterexample to C1 as stated: with stride `2147483647`, slice height `1`,
physical address `0` and pages of 4096 bytes, the product and its sum with
the page offset fit in 32 bits, yet the `gint` length computed by
`GST_ROUND_UP_N` is `-2147483648`; the length requested from the memory
manager is `18446744071562067968`, not the least multiple `2147483648` of the
page size above the plane. -/
theorem dmabuf_plane_region_counterexample :
    (plane_export 4096 0 0 2147483647 1).plane_size = 2147483647 ∧
    (plane_export 4096 0 0 2147483647 1).page_offset = 0 ∧
    (plane_export 4096 0 0 2147483647 1).plane_size
      + (plane_export 4096 0 0 2147483647 1).page_offset < 2 ^ 31 ∧
    (plane_export 4096 0 0 2147483647 1).plane_size_ext = -2147483648 ∧
    (∃ s', gst_omx_buffer_pool_create_buffer_contain_dmabuf example_env example_dmabuf_st 0
        [2147483647, 0, 0, 0] [1, 0, 0, 0] [0, 0, 0, 0] = Run.done (some 0, s') ∧
      s'.trace[0]? = some (Event.export_start 0 18446744071562067968 (some (7, 20)))) ∧
    4096 ∣ 2147483648 ∧ 2147483647 + 0 ≤ 2147483648 ∧
    ¬ (18446744071562067968 ≤ 2147483648) := by
  refine ⟨by decide, by decide, by decide, by decide, ⟨_, rfl, by decide⟩, by decide,
    by decide, by decide⟩

/-- Witness of `export_request_address` on the NV12 example: two requests, for
the unaligned addresses `0x10000010` and `0x101FA410`. -/
theorem export_request_address_witness :
    ∃ (tt : List Event),
      example_dmabuf_created_st.trace = example_dmabuf_st.trace ++ tt ∧
      tt.length ≤ example_dmabuf_st.pool.video_info.n_planes ∧
      ((some 0 : Option Nat).isSome → tt.length = example_dmabuf_st.pool.video_info.n_planes) ∧
      ∀ j, j < tt.length →
        ∃ (o : Nat) (st sl : Int) (res : Option (Int × Int)),
          [0, 2073600, 0, 0][j]? = some o ∧ [1920, 1920, 0, 0][j]? = some st ∧
          [1080, 540, 0, 0][j]? = some sl ∧
          tt[j]? = some (Event.export_start (to_guint (0x10000010 + o))
            (to_gsize (plane_export example_env.page_size 0x10000010 o st sl).plane_size_ext)
            res) ∧
          (2 ^ 12 ∣ to_guint (0x10000010 + o)
            ↔ (plane_export example_env.page_size 0x10000010 o st sl).page_offset = 0) :=
  export_request_address example_env example_dmabuf_st example_dmabuf_created_st (some 0)
    0x10000010 [1920, 1920, 0, 0] [1080, 540, 0, 0] [0, 2073600, 0, 0] 12 (by decide) rfl
    (by decide)

/-- Counterexample to C6 as stated: for the plane at the physical address
`0x10000010` (268435472) with pages of 4096 bytes the page offset is 16, and
the address handed to the memory manager is 268435472 itself: it is neither
`phys - page_offset` = 268435456 nor a multiple of the page size. -/
theorem export_request_address_counterexample :
    gst_omx_buffer_pool_create_buffer_contain_dmabuf example_env example_dmabuf_st
        0x10000010 [1920, 1920, 0, 0] [1080, 540, 0, 0] [0, 2073600, 0, 0]
      = Run.done (some 0, example_dmabuf_created_st) ∧
    example_dmabuf_created_st.trace
      = [Event.export_start 268435472 2076672 (some (7, 20)),
         Event.export_start 270509072 1040384 (some (8, 21))] ∧
    (plane_export example_env.page_size 0x10000010 0 1920 1080).page_offset = 16 ∧
    (268435472 : Nat) ≠ 268435472 - 16 ∧ ¬ (4096 ∣ 268435472) := by
  refine ⟨by decide, by decide, by decide, by decide, by decide⟩

/-- C9 (amended).  For every port alignment `a = nBufferAlignment` below `2 ^ 31`
(the values that fit the `gint` local `align`), the alignment mask of the
memory created by `gst_omx_memory_allocator_alloc` is `a - 1` when `a` is a
power of two and `0` when `a` is `0` or not a power of two; the conversion is
a total function, so it never fails. -/
theorem alloc_alignment_mask (flags : Nat) (port : GstOMXPort) (slot : Nat)
    (omx_buf : GstOMXBuffer) (h : port.port_def.nBufferAlignment < 2 ^ 31) :
    ((∃ k, port.port_def.nBufferAlignment = 2 ^ k) →
      (gst_omx_memory_allocator_alloc flags port slot omx_buf).align
        = port.port_def.nBufferAlignment - 1) ∧
    ((¬ ∃ k, port.port_def.nBufferAlignment = 2 ^ k) →
      (gst_omx_memory_allocator_alloc flags port slot omx_buf).align = 0) := by
  obtain ⟨h1, h2⟩ := alloc_align_of_lt h
  constructor
  · intro hp
    have hpos : 0 < port.port_def.nBufferAlignment := by
      obtain ⟨k, hk⟩ := hp
      rw [hk]
      exact Nat.pow_pos (by norm_num)
    simp only [gst_omx_memory_allocator_alloc]
    rw [h1 hp]
    have e : ((port.port_def.nBufferAlignment : Int) - 1)
        = ((port.port_def.nBufferAlignment - 1 : Nat) : Int) := by
      push_cast [Nat.cast_sub hpos]; ring
    rw [e]
    exact to_gsize_natCast (lt_of_le_of_lt (Nat.sub_le _ _) (lt_trans h (by norm_num)))
  · intro hp
    simp only [gst_omx_memory_allocator_alloc]
    rw [h2 hp]
    rfl

/-- The output port of `example_dmabuf_st`, with alignment 64. -/
theorem alloc_alignment_mask_witness :
    ((∃ k, (64 : Nat) = 2 ^ k) →
      (gst_omx_memory_allocator_alloc 0
        { port_def := { eDir := OMX_DIRTYPE.OMX_DirOutput, nBufferCountActual := 1,
                        nBufferAlignment := 64, nStride := 1920, nSliceHeight := 1080 },
          buffers := [] } 0
        { used := false, nAllocLen := 3110400, nFilledLen := 0, nOffset := 0,
          pOutputPortPrivate := none }).align = 64 - 1) ∧
    ((¬ ∃ k, (64 : Nat) = 2 ^ k) →
      (gst_omx_memory_allocator_alloc 0
        { port_def := { eDir := OMX_DIRTYPE.OMX_DirOutput, nBufferCountActual := 1,
                        nBufferAlignment := 64, nStride := 1920, nSliceHeight := 1080 },
          buffers := [] } 0
        { used := false, nAllocLen := 3110400, nFilledLen := 0, nOffset := 0,
          pOutputPortPrivate := none }).align = 0) :=
  alloc_alignment_mask 0
    { port_def := { eDir := OMX_DIRTYPE.OMX_DirOutput, nBufferCountActual := 1,
                    nBufferAlignment := 64, nStride := 1920, nSliceHeight := 1080 },
      buffers := [] } 0
    { used := false, nAllocLen := 3110400, nFilledLen := 0, nOffset := 0,
      pOutputPortPrivate := none } (by decide)

/-- Counterexample to C9 as stated: the 32-bit alignment `2 ^ 31` is a power of
two, yet the mask of the created memory is `0`, not `2 ^ 31 - 1`; and the
32-bit alignment `2 ^ 32 - 1` is not a power of two, yet the mask is
`2 ^ 64 - 1`, not `0`. -/
theorem alloc_alignment_mask_counterexample :
    (2147483648 : Nat) < 2 ^ 32 ∧ (2147483648 : Nat) = 2 ^ 31 ∧
    (gst_omx_memory_allocator_alloc 0
      { port_def := { eDir := OMX_DIRTYPE.OMX_DirOutput, nBufferCountActual := 1,
                      nBufferAlignment := 2147483648, nStride := 0, nSliceHeight := 0 },
        buffers := [] } 0
      { used := false, nAllocLen := 0, nFilledLen := 0, nOffset := 0,
        pOutputPortPrivate := none }).align = 0 ∧
    (0 : Nat) ≠ 2147483648 - 1 ∧
    (4294967295 : Nat) < 2 ^ 32 ∧
    (gst_omx_memory_allocator_alloc 0
      { port_def := { eDir := OMX_DIRTYPE.OMX_DirOutput, nBufferCountActual := 1,
                      nBufferAlignment := 4294967295, nStride := 0, nSliceHeight := 0 },
        buffers := [] } 0
      { used := false, nAllocLen := 0, nFilledLen := 0, nOffset := 0,
        pOutputPortPrivate := none }).align = 18446744073709551615 := by
  refine ⟨by decide, by decide, by decide, by decide, by decide, by decide⟩

/-- C11.  With a borrowed pool `P` configured, `gst_omx_buffer_pool_alloc_buffer` on a
pre-populated buffer owned by `P` succeeds, detaches the buffer from `P`
(owner `none`) and associates it with its slot; `gst_omx_buffer_pool_free_buffer` then
sets the owner back to `P` in its single call to the parent's `free_buffer`
and clears the slot association, so the original owner is restored.  Without
a borrowed pool `gst_omx_buffer_pool_free_buffer` only clears the slot association. -/
theorem borrowed_pool_reparenting (env : Env) (s : St) (port : GstOMXPort)
    (omx_buf : GstOMXBuffer) (buf : GstBuffer) (P n : Nat)
    (halloc : s.pool.allocating = true) (hport : s.pool.port = some port)
    (hidx : s.pool.current_buffer_index = (n : Int))
    (hslot : port.buffers[n]? = some (some omx_buf))
    (hother : s.pool.other_pool = some P)
    (hbuf : s.pool.buffers[n]? = some (some buf)) (hown : buf.pool = some P) :
    (∃ (r : AllocResult) (buf1 : GstBuffer),
      gst_omx_buffer_pool_alloc_buffer env s = Run.done r ∧
      r.ret = GstFlowReturn.GST_FLOW_OK ∧ r.buffer = some n ∧
      r.st.pool.other_pool = some P ∧
      r.st.pool.buffers[n]? = some (some buf1) ∧ buf1.pool = none ∧ buf1.qdata = some n ∧
      (gst_omx_buffer_pool_free_buffer r.st buf1).1.pool = some P ∧
      (gst_omx_buffer_pool_free_buffer r.st buf1).1.pool = buf.pool ∧
      (gst_omx_buffer_pool_free_buffer r.st buf1).1.qdata = none ∧
      (gst_omx_buffer_pool_free_buffer r.st buf1).2.trace
        = r.st.trace ++ [Event.parent_free_buffer]) ∧
    (∀ (s0 : St) (b : GstBuffer), s0.pool.other_pool = none →
      (gst_omx_buffer_pool_free_buffer s0 b).1 = { b with qdata := none }) := by
  have hn : (¬ ((n : Int) < 0)) := by omega
  have hlen : n < s.pool.buffers.length := by
    by_contra hc
    rw [List.getElem?_eq_none (by omega)] at hbuf
    cases hbuf
  constructor
  · have hrun : gst_omx_buffer_pool_alloc_buffer env s
        = alloc_buffer_other_pool env s P n := by
      simp [gst_omx_buffer_pool_alloc_buffer, halloc, hport, g_ptr_array_index, hidx, hn,
        hslot, hother]
    have hrun2 : ∃ buf2 : GstBuffer, buf2.pool = none ∧
        alloc_buffer_other_pool env s P n
          = Run.done (alloc_buffer_finish { s.pool with need_copy := false } s.trace n buf2 n) := by
      simp only [alloc_buffer_other_pool, g_ptr_array_index, hidx, hn, if_false, Int.toNat_ofNat,
        hbuf, hown]
      simp only [ne_eq, not_true_eq_false, if_false]
      split
      · exact ⟨_, rfl, rfl⟩
      · exact ⟨_, rfl, rfl⟩
    obtain ⟨buf2, hp2, hrun2⟩ := hrun2
    refine ⟨_, { buf2 with qdata := some n }, hrun.trans hrun2, rfl, rfl, ?_, ?_, hp2, rfl,
      ?_, ?_, rfl, rfl⟩
    · simp [alloc_buffer_finish, hother]
    · simp [alloc_buffer_finish, hlen]
    · simp [gst_omx_buffer_pool_free_buffer, alloc_buffer_finish, hother]
    · simp [gst_omx_buffer_pool_free_buffer, alloc_buffer_finish, hother, hown]
  · intro s0 b h0
    simp [gst_omx_buffer_pool_free_buffer, h0]

/-- Witness of `borrowed_pool_reparenting` on `example_borrowed_st`, whose only
buffer is owned by the borrowed pool `5`. -/
theorem borrowed_pool_reparenting_witness :
    (∃ (r : AllocResult) (buf1 : GstBuffer),
      gst_omx_buffer_pool_alloc_buffer example_env example_borrowed_st = Run.done r ∧
      r.ret = GstFlowReturn.GST_FLOW_OK ∧ r.buffer = some 0 ∧
      r.st.pool.other_pool = some 5 ∧
      r.st.pool.buffers[0]? = some (some buf1) ∧ buf1.pool = none ∧ buf1.qdata = some 0 ∧
      (gst_omx_buffer_pool_free_buffer r.st buf1).1.pool = some 5 ∧
      (gst_omx_buffer_pool_free_buffer r.st buf1).1.pool = some 5 ∧
      (gst_omx_buffer_pool_free_buffer r.st buf1).1.qdata = none ∧
      (gst_omx_buffer_pool_free_buffer r.st buf1).2.trace
        = r.st.trace ++ [Event.parent_free_buffer]) ∧
    (∀ (s0 : St) (b : GstBuffer), s0.pool.other_pool = none →
      (gst_omx_buffer_pool_free_buffer s0 b).1 = { b with qdata := none }) :=
  borrowed_pool_reparenting example_env example_borrowed_st
    { port_def := { eDir := OMX_DIRTYPE.OMX_DirOutput, nBufferCountActual := 1,
                    nBufferAlignment := 64, nStride := 1920, nSliceHeight := 1080 },
      buffers := [some { used := false, nAllocLen := 3110400, nFilledLen := 0,
                         nOffset := 0, pOutputPortPrivate := none }] }
    { used := false, nAllocLen := 3110400, nFilledLen := 0, nOffset := 0,
      pOutputPortPrivate := none }
    { pool := some 5,
      memory := [{ flags := 0, mem_type := MemType.foreign, maxsize := 3110400, align := 0,
                   offset := 0, size := 3110400, buf := none, fd := none }],
      video_meta := none, qdata := none }
    5 0 rfl rfl rfl rfl rfl rfl rfl

/-- C13 (as the code behaves).  For every slot, the memory that
`gst_omx_memory_allocator_alloc` creates with the flags `0` passed by
`gst_omx_buffer_pool_alloc_buffer` carries `GST_MEMORY_FLAG_NO_SHARE` and spans the
whole allocation (offset 0, size = maxsize = `nAllocLen`), but its
`GST_MEMORY_FLAG_READONLY` bit is clear; for arbitrary caller flags the
read-only bit is set exactly when the caller passed it. -/
theorem direct_view_memory_flags (flags : Nat) (port : GstOMXPort) (slot : Nat)
    (omx_buf : GstOMXBuffer) :
    (gst_omx_memory_allocator_alloc 0 port slot omx_buf).flags = GST_MEMORY_FLAG_NO_SHARE ∧
    (gst_omx_memory_allocator_alloc 0 port slot omx_buf).flags &&& GST_MEMORY_FLAG_READONLY = 0 ∧
    (gst_omx_memory_allocator_alloc flags port slot omx_buf).flags &&& GST_MEMORY_FLAG_NO_SHARE
      = GST_MEMORY_FLAG_NO_SHARE ∧
    (gst_omx_memory_allocator_alloc flags port slot omx_buf).flags &&& GST_MEMORY_FLAG_READONLY
      = flags &&& GST_MEMORY_FLAG_READONLY ∧
    (gst_omx_memory_allocator_alloc flags port slot omx_buf).offset = 0 ∧
    (gst_omx_memory_allocator_alloc flags port slot omx_buf).size = omx_buf.nAllocLen ∧
    (gst_omx_memory_allocator_alloc flags port slot omx_buf).maxsize = omx_buf.nAllocLen := by
  refine ⟨by simp [gst_omx_memory_allocator_alloc], ?_, ?_, ?_, rfl, rfl, rfl⟩
  · simp only [gst_omx_memory_allocator_alloc, GST_MEMORY_FLAG_NO_SHARE,
      GST_MEMORY_FLAG_READONLY]
    decide
  · simp only [gst_omx_memory_allocator_alloc, GST_MEMORY_FLAG_NO_SHARE]
    apply Nat.eq_of_testBit_eq
    intro i
    simp only [Nat.testBit_and, Nat.testBit_or]
    cases (Nat.testBit flags i) <;> simp
  · simp only [gst_omx_memory_allocator_alloc, GST_MEMORY_FLAG_NO_SHARE,
      GST_MEMORY_FLAG_READONLY]
    apply Nat.eq_of_testBit_eq
    intro i
    simp only [Nat.testBit_and, Nat.testBit_or]
    have h16 : Nat.testBit 16 i = decide (4 = i) := by
      have := @Nat.testBit_two_pow 4 i
      simpa using this
    have h2 : Nat.testBit 2 i = decide (1 = i) := by
      have := @Nat.testBit_two_pow 1 i
      simpa using this
    rw [h16, h2]
    by_cases h : 1 = i
    · subst h; simp
    · simp [h]

/-- C14 (amended).  On a running pool (neither allocating nor deactivated) bound
to a component and a non-output port, `gst_omx_buffer_pool_release_buffer` on a buffer
whose slot is in-flight does nothing; on a buffer whose slot is not in-flight
it does nothing when the no-copy flag is on, and fails
`g_assert_not_reached ()` when the no-copy flag is off. -/
theorem release_buffer_non_output (env : Env) (s : St) (port : GstOMXPort) (buffer slot : Nat)
    (buf : GstBuffer) (omx_buf : GstOMXBuffer)
    (hcomp : s.pool.component = true) (hport : s.pool.port = some port)
    (hdir : port.port_def.eDir ≠ OMX_DIRTYPE.OMX_DirOutput)
    (halloc : s.pool.allocating = false) (hdeact : s.pool.deactivated = false)
    (hbuf : s.pool.buffers[buffer]? = some (some buf)) (hq : buf.qdata = some slot)
    (hslot : port.buffers[slot]? = some (some omx_buf)) :
    (omx_buf.used = true → gst_omx_buffer_pool_release_buffer env s buffer = Run.done s) ∧
    (omx_buf.used = false → s.pool.element.no_copy = true →
      gst_omx_buffer_pool_release_buffer env s buffer = Run.done s) ∧
    (omx_buf.used = false → s.pool.element.no_copy = false →
      gst_omx_buffer_pool_release_buffer env s buffer = Run.abort) := by
  refine ⟨fun hu => ?_, fun hu hn => ?_, fun hu hn => ?_⟩
  · simp [gst_omx_buffer_pool_release_buffer, hcomp, hport, halloc, hdeact, hbuf, hq, hslot,
      hdir, hu]
  · simp [gst_omx_buffer_pool_release_buffer, hcomp, hport, halloc, hdeact, hbuf, hq, hslot,
      hdir, hu, hn]
  · simp [gst_omx_buffer_pool_release_buffer, hcomp, hport, halloc, hdeact, hbuf, hq, hslot,
      hdir, hu, hn]

/-- Witness of `release_buffer_non_output` on the encoder input pool with the
no-copy flag on and an idle slot. -/
theorem release_buffer_non_output_witness :
    ((false : Bool) = true →
      gst_omx_buffer_pool_release_buffer example_env (example_enc_input_st true false) 0
        = Run.done (example_enc_input_st true false)) ∧
    ((false : Bool) = false → (example_enc_input_st true false).pool.element.no_copy = true →
      gst_omx_buffer_pool_release_buffer example_env (example_enc_input_st true false) 0
        = Run.done (example_enc_input_st true false)) ∧
    ((false : Bool) = false → (example_enc_input_st true false).pool.element.no_copy = false →
      gst_omx_buffer_pool_release_buffer example_env (example_enc_input_st true false) 0
        = Run.abort) :=
  release_buffer_non_output example_env (example_enc_input_st true false)
    { port_def := { eDir := OMX_DIRTYPE.OMX_DirInput, nBufferCountActual := 1,
                    nBufferAlignment := 64, nStride := 1920, nSliceHeight := 1080 },
      buffers := [some { used := false, nAllocLen := 3110400, nFilledLen := 0,
                         nOffset := 0, pOutputPortPrivate := none }] }
    0 0
    { pool := none, memory := [gst_memory_new_wrapped 0 3110400 0 0], video_meta := none,
      qdata := some 0 }
    { used := false, nAllocLen := 3110400, nFilledLen := 0, nOffset := 0,
      pOutputPortPrivate := none }
    rfl rfl (by decide) rfl rfl rfl rfl rfl

/-- Counterexample to C14 as stated: on a running encoder input pool with the
no-copy flag off, releasing a buffer whose slot is not in-flight fails the
assertion instead of completing with a call of the parent's
`release_buffer`. -/
theorem release_buffer_non_output_counterexample :
    (example_enc_input_st false false).pool.allocating = false ∧
    (example_enc_input_st false false).pool.deactivated = false ∧
    (example_enc_input_st false false).pool.element.no_copy = false ∧
    gst_omx_buffer_pool_release_buffer example_env (example_enc_input_st false false) 0
      = Run.abort ∧
    (∀ s1 : St, gst_omx_buffer_pool_release_buffer example_env (example_enc_input_st false false) 0
      ≠ Run.done s1) := by
  refine ⟨rfl, rfl, rfl, by decide, ?_⟩
  intro s1
  have h : gst_omx_buffer_pool_release_buffer example_env (example_enc_input_st false false) 0
      = Run.abort := by decide
  rw [h]
  exact fun hc => Run.noConfusion hc

/-- The layout of the planar format I420 when nothing overflows. -/
theorem plane_layout_i420 {S H : Nat} (hS : S < 2 ^ 31) (hH : H < 2 ^ 31)
    (hSH : S * H < 2 ^ 32) :
    plane_layout GstVideoFormat.I420 S H = some
      { stride := [(S : Int), ((S / 2 : Nat) : Int), ((S / 2 : Nat) : Int), 0],
        slice := [(H : Int), ((H / 2 : Nat) : Int), ((H / 2 : Nat) : Int), 0],
        offset := [0, S * H, S * H + S / 2 * H / 2, 0] } := by
  have h1 : to_guint S = S := Nat.mod_eq_of_lt (by omega)
  have h2 : to_guint H = H := Nat.mod_eq_of_lt (by omega)
  have h3 : to_gint (Int.ofNat S) = (S : Int) :=
    to_gint_of_range (by simp; omega) (by simp; omega)
  have h4 : to_gint (Int.ofNat H) = (H : Int) :=
    to_gint_of_range (by simp; omega) (by simp; omega)
  have h5 : to_gint (Int.ofNat (S / 2)) = ((S / 2 : Nat) : Int) :=
    to_gint_of_range (by simp; omega) (by simp; omega)
  have h6 : to_gint (Int.ofNat (H / 2)) = ((H / 2 : Nat) : Int) :=
    to_gint_of_range (by simp; omega) (by simp; omega)
  have h7 : gint_bits (S : Int) = S := gint_bits_natCast (by omega)
  have h8 : gint_bits ((S / 2 : Nat) : Int) = S / 2 := gint_bits_natCast (by omega)
  have h9 : to_guint (S * H) = S * H := Nat.mod_eq_of_lt hSH
  have hle : S / 2 * H ≤ S * H := Nat.mul_le_mul_right H (Nat.div_le_self S 2)
  have h10 : to_guint (S / 2 * H) = S / 2 * H := Nat.mod_eq_of_lt (by omega)
  have hd : S / 2 * H / 2 ≤ S / 2 * H := Nat.div_le_self _ _
  have h11 : to_gsize (Int.ofNat (0 + S * H)) = S * H := by
    rw [Nat.zero_add]; exact to_gsize_natCast (by omega)
  have h12 : to_gsize (Int.ofNat (S * H + S / 2 * H / 2)) = S * H + S / 2 * H / 2 :=
    to_gsize_natCast (by omega)
  simp only [plane_layout, h1, h2, h3, h4, h5, h6, h7, h8, h9, h10, h11, h12]

/-- The layout of the semi-planar formats NV12 and NV16 when nothing overflows. -/
theorem plane_layout_semi_planar {S H : Nat} (hS : S < 2 ^ 31) (hH : H < 2 ^ 31)
    (hSH : S * H < 2 ^ 32) (format : GstVideoFormat)
    (hf : format = GstVideoFormat.NV12 ∨ format = GstVideoFormat.NV16) :
    plane_layout format S H = some
      { stride := [(S : Int), (S : Int), 0, 0],
        slice := [(H : Int), ((H / 2 : Nat) : Int), 0, 0],
        offset := [0, S * H, 0, 0] } := by
  have h1 : to_guint S = S := Nat.mod_eq_of_lt (by omega)
  have h2 : to_guint H = H := Nat.mod_eq_of_lt (by omega)
  have h3 : to_gint (Int.ofNat S) = (S : Int) :=
    to_gint_of_range (by simp; omega) (by simp; omega)
  have h4 : to_gint (Int.ofNat H) = (H : Int) :=
    to_gint_of_range (by simp; omega) (by simp; omega)
  have h6 : to_gint (Int.ofNat (H / 2)) = ((H / 2 : Nat) : Int) :=
    to_gint_of_range (by simp; omega) (by simp; omega)
  have h7 : gint_bits (S : Int) = S := gint_bits_natCast (by omega)
  have h9 : to_guint (S * H) = S * H := Nat.mod_eq_of_lt hSH
  have h11 : to_gsize (Int.ofNat (0 + S * H)) = S * H := by
    rw [Nat.zero_add]; exact to_gsize_natCast (by omega)
  rcases hf with rfl | rfl <;>
    simp only [plane_layout, h1, h2, h3, h4, h6, h7, h9, h11]

/-- The layout of the packed formats when nothing overflows. -/
theorem plane_layout_packed {S H : Nat} (hS : S < 2 ^ 31) (hH : H < 2 ^ 31)
    (format : GstVideoFormat) (hf : format_n_planes format = 1) :
    plane_layout format S H = some
      { stride := [(S : Int), 0, 0, 0], slice := [(H : Int), 0, 0, 0],
        offset := [0, 0, 0, 0] } := by
  have h1 : to_guint S = S := Nat.mod_eq_of_lt (by omega)
  have h2 : to_guint H = H := Nat.mod_eq_of_lt (by omega)
  have h3 : to_gint (Int.ofNat S) = (S : Int) :=
    to_gint_of_range (by simp; omega) (by simp; omega)
  have h4 : to_gint (Int.ofNat H) = (H : Int) :=
    to_gint_of_range (by simp; omega) (by simp; omega)
  cases format <;> simp [format_n_planes] at hf <;>
    simp only [plane_layout, h1, h2, h3, h4]

/-- C15 (amended).  For every port stride `S = nStride` and slice height
`H = nSliceHeight` below `2 ^ 31` (so that both fit the `gint` arrays) with
`S * H < 2 ^ 32`, and every supported format, `plane_layout` succeeds; plane 0
has offset 0, stride `S` and slice `H`; for I420 planes 1 and 2 have stride
`S / 2` and slice `H / 2`; for NV12 and NV16 plane 1 has stride `S` and slice
`H / 2`; `offset[1] = S * H` for these formats and, for I420,
`offset[2] ≥ offset[1] + stride[1] * slice[1]`; the byte ranges of the
format's planes are in increasing order and disjoint
(`offset[i] + stride[i] * slice[i] ≤ offset[j]` for `i < j`); all entries for
planes beyond the format's plane count are 0. -/
theorem plane_layout_spec (format : GstVideoFormat) (S H : Nat) (hS : S < 2 ^ 31)
    (hH : H < 2 ^ 31) (hSH : S * H < 2 ^ 32) (hf : format ≠ GstVideoFormat.OTHER) :
    ∃ layout : PlaneLayout,
      plane_layout format S H = some layout ∧
      layout.stride.length = 4 ∧ layout.slice.length = 4 ∧ layout.offset.length = 4 ∧
      layout.offset.getD 0 0 = 0 ∧ layout.stride.getD 0 0 = (S : Int) ∧
      layout.slice.getD 0 0 = (H : Int) ∧
      (format = GstVideoFormat.I420 →
        layout.stride.getD 1 0 = ((S / 2 : Nat) : Int) ∧
        layout.slice.getD 1 0 = ((H / 2 : Nat) : Int) ∧
        layout.stride.getD 2 0 = ((S / 2 : Nat) : Int) ∧
        layout.slice.getD 2 0 = ((H / 2 : Nat) : Int) ∧
        layout.offset.getD 1 0 = S * H ∧
        layout.offset.getD 1 0 + (S / 2) * (H / 2) ≤ layout.offset.getD 2 0) ∧
      (format = GstVideoFormat.NV12 ∨ format = GstVideoFormat.NV16 →
        layout.stride.getD 1 0 = (S : Int) ∧
        layout.slice.getD 1 0 = ((H / 2 : Nat) : Int) ∧
        layout.offset.getD 1 0 = S * H) ∧
      (∀ i j, i < j → j < format_n_planes format →
        (layout.offset.getD i 0 : Int) + layout.stride.getD i 0 * layout.slice.getD i 0
          ≤ (layout.offset.getD j 0 : Int)) ∧
      (∀ i, format_n_planes format ≤ i →
        layout.stride.getD i 0 = 0 ∧ layout.slice.getD i 0 = 0 ∧
        layout.offset.getD i 0 = 0) := by
  have hmul : S / 2 * (H / 2) ≤ S / 2 * H / 2 := by
    rw [Nat.le_div_iff_mul_le (by norm_num), Nat.mul_assoc]
    exact Nat.mul_le_mul_left _ (Nat.div_mul_le_self H 2)
  have hzero : ∀ (i : Nat), 4 ≤ i → ∀ (a b c d : Int), [a, b, c, d].getD i 0 = 0 := by
    intro i hi a b c d
    rw [List.getD_eq_default]
    simpa using hi
  have hzeroN : ∀ (i : Nat), 4 ≤ i → ∀ (a b c d : Nat), [a, b, c, d].getD i 0 = 0 := by
    intro i hi a b c d
    rw [List.getD_eq_default]
    simpa using hi
  by_cases h420 : format = GstVideoFormat.I420
  · subst h420
    refine ⟨_, plane_layout_i420 hS hH hSH, rfl, rfl, rfl, rfl, rfl, rfl, ?_, ?_, ?_, ?_⟩
    · intro _
      refine ⟨rfl, rfl, rfl, rfl, rfl, ?_⟩
      show S * H + S / 2 * (H / 2) ≤ S * H + S / 2 * H / 2
      exact Nat.add_le_add_left hmul _
    · intro h; rcases h with h | h <;> cases h
    · intro i j hij hj
      have hj3 : j < 3 := hj
      have hc : (i = 0 ∧ j = 1) ∨ (i = 0 ∧ j = 2) ∨ (i = 1 ∧ j = 2) := by omega
      rcases hc with ⟨rfl, rfl⟩ | ⟨rfl, rfl⟩ | ⟨rfl, rfl⟩
      · show ((0 : Nat) : Int) + (S : Int) * (H : Int) ≤ ((S * H : Nat) : Int)
        push_cast; simp
      · show ((0 : Nat) : Int) + (S : Int) * (H : Int)
          ≤ ((S * H + S / 2 * H / 2 : Nat) : Int)
        have : S * H ≤ S * H + S / 2 * H / 2 := Nat.le_add_right _ _
        have h2 : ((S * H : Nat) : Int) ≤ ((S * H + S / 2 * H / 2 : Nat) : Int) := by
          exact_mod_cast this
        push_cast at h2 ⊢
        simpa using h2
      · show ((S * H : Nat) : Int) + ((S / 2 : Nat) : Int) * ((H / 2 : Nat) : Int)
          ≤ ((S * H + S / 2 * H / 2 : Nat) : Int)
        have : S * H + S / 2 * (H / 2) ≤ S * H + S / 2 * H / 2 := Nat.add_le_add_left hmul _
        exact_mod_cast this
    · intro i hi
      have hi3 : 3 ≤ i := hi
      rcases Nat.eq_or_lt_of_le hi3 with rfl | h4
      · exact ⟨rfl, rfl, rfl⟩
      · exact ⟨hzero i h4 _ _ _ _, hzero i h4 _ _ _ _, hzeroN i h4 _ _ _ _⟩
  · by_cases hnv : format = GstVideoFormat.NV12 ∨ format = GstVideoFormat.NV16
    · have hn : format_n_planes format = 2 := by rcases hnv with rfl | rfl <;> rfl
      refine ⟨_, plane_layout_semi_planar hS hH hSH format hnv, rfl, rfl, rfl, rfl, rfl, rfl,
        fun h => absurd h h420, fun _ => ⟨rfl, rfl, rfl⟩, ?_, ?_⟩
      · intro i j hij hj
        rw [hn] at hj
        have hc : i = 0 ∧ j = 1 := by omega
        obtain ⟨rfl, rfl⟩ := hc
        show ((0 : Nat) : Int) + (S : Int) * (H : Int) ≤ ((S * H : Nat) : Int)
        push_cast; simp
      · intro i hi
        rw [hn] at hi
        have hc : i = 2 ∨ i = 3 ∨ 4 ≤ i := by omega
        rcases hc with rfl | rfl | h4
        · exact ⟨rfl, rfl, rfl⟩
        · exact ⟨rfl, rfl, rfl⟩
        · exact ⟨hzero i h4 _ _ _ _, hzero i h4 _ _ _ _, hzeroN i h4 _ _ _ _⟩
    · have hn : format_n_planes format = 1 := by
        cases format <;> simp_all [format_n_planes]
      refine ⟨_, plane_layout_packed hS hH format hn, rfl, rfl, rfl, rfl, rfl, rfl,
        fun h => absurd h h420, fun h => absurd h hnv, ?_, ?_⟩
      · intro i j hij hj
        rw [hn] at hj
        omega
      · intro i hi
        rw [hn] at hi
        have hc : i = 1 ∨ i = 2 ∨ i = 3 ∨ 4 ≤ i := by omega
        rcases hc with rfl | rfl | rfl | h4
        · exact ⟨rfl, rfl, rfl⟩
        · exact ⟨rfl, rfl, rfl⟩
        · exact ⟨rfl, rfl, rfl⟩
        · exact ⟨hzero i h4 _ _ _ _, hzero i h4 _ _ _ _, hzeroN i h4 _ _ _ _⟩

theorem gint_bits_lt (x : Int) : gint_bits x < 2 ^ 32 := by
  unfold gint_bits
  omega

theorem gint_bits_to_gint_succ {cnt : Int} (h : gint_bits cnt + 1 < 2 ^ 32) :
    gint_bits (to_gint (cnt + 1)) = gint_bits cnt + 1 := by
  unfold gint_bits to_gint at *
  omega

/-- The bound `nBufferCountActual * 3`, computed in 32 bits, is not zero for a
non-zero 32-bit buffer count. -/
theorem three_mul_mod_ne_zero {n : Nat} (h1 : 1 ≤ n) (h2 : n < 2 ^ 32) :
    0 < to_guint (n * 3) := by
  unfold to_guint
  rcases Nat.eq_zero_or_pos (n * 3 % 2 ^ 32) with h0 | h0
  · exfalso
    have hd : 2 ^ 32 ∣ n * 3 := Nat.dvd_of_mod_eq_zero h0
    have hc : Nat.Coprime (2 ^ 32) 3 := by norm_num
    have hn : 2 ^ 32 ∣ n := hc.dvd_of_dvd_mul_right hd
    have hle : 2 ^ 32 ≤ n := Nat.le_of_dvd (Nat.lt_of_lt_of_le Nat.zero_lt_one h1) hn
    exact absurd h2 (Nat.not_lt.mpr hle)
  · exact h0

/-- When the search loop of the encoder leaves with a buffer, either the
counter has reached the bound or the slot of the buffer is not in-flight. -/
theorem enc_search_loop_sound (port : GstOMXPort) (buffers : List (Option GstBuffer)) :
    ∀ (fuel idx : Nat) (cnt : Int) (probed : List Nat) (r : EncSearch) (b : Nat),
      enc_search_loop port buffers fuel idx cnt probed = Run.done r →
      gint_bits cnt < to_guint (port.port_def.nBufferCountActual * 3) →
      r.buf = some b →
      gint_bits r.count = to_guint (port.port_def.nBufferCountActual * 3) ∨
      ∃ omx_buf, slot_of_buffer port buffers b = some omx_buf ∧ omx_buf.used = false := by
  intro fuel
  induction fuel with
  | zero =>
    intro idx cnt probed r b h
    simp [enc_search_loop] at h
  | succ fuel ih =>
    intro idx cnt probed r b h hc hb
    have hB : to_guint (port.port_def.nBufferCountActual * 3) < 2 ^ 32 := by
      unfold to_guint; omega
    have hcnt : gint_bits (to_gint (cnt + 1)) = gint_bits cnt + 1 :=
      gint_bits_to_gint_succ (by omega)
    rw [enc_search_loop] at h
    cases h1 : buffers[idx]? with
    | none => simp [h1] at h
    | some ob =>
      cases ob with
      | none =>
        simp only [h1, Run.done.injEq] at h
        subst h
        simp at hb
      | some buf =>
        simp only [h1] at h
        cases h2 : buf.qdata with
        | none => simp [h2] at h
        | some slot =>
          simp only [h2] at h
          cases h3 : port.buffers[slot]? with
          | none => simp [h3] at h
          | some oo =>
            cases oo with
            | none => simp [h3] at h
            | some omx_buf =>
              simp only [h3] at h
              by_cases hcond : (omx_buf.used &&
                  decide (gint_bits (to_gint (cnt + 1))
                    < to_guint (port.port_def.nBufferCountActual * 3))) = true
              · rw [if_pos hcond] at h
                simp only [Bool.and_eq_true, decide_eq_true_eq] at hcond
                exact ih _ _ _ _ _ h hcond.2 hb
              · rw [if_neg hcond] at h
                simp only [Run.done.injEq] at h
                subst h
                simp only [Option.some.injEq] at hb
                subst hb
                simp only [Bool.and_eq_true, decide_eq_true_eq, not_and] at hcond
                by_cases hu : omx_buf.used = true
                · left
                  have := hcond hu
                  show gint_bits (to_gint (cnt + 1)) = _
                  omega
                · right
                  refine ⟨omx_buf, ?_, by simpa using hu⟩
                  simp [slot_of_buffer, h1, h2, h3]

/-- Witness of `plane_layout_spec` for I420 with stride 1920 and slice height 1080. -/
theorem plane_layout_spec_witness :
    ∃ layout : PlaneLayout,
      plane_layout GstVideoFormat.I420 1920 1080 = some layout ∧
      layout.stride = [1920, 960, 960, 0] ∧ layout.slice = [1080, 540, 540, 0] ∧
      layout.offset = [0, 2073600, 2592000, 0] ∧
      (∀ i j, i < j → j < format_n_planes GstVideoFormat.I420 →
        (layout.offset.getD i 0 : Int) + layout.stride.getD i 0 * layout.slice.getD i 0
          ≤ (layout.offset.getD j 0 : Int)) := by
  obtain ⟨layout, h1, -, -, -, -, -, -, -, -, h2, -⟩ :=
    plane_layout_spec GstVideoFormat.I420 1920 1080 (by norm_num) (by norm_num) (by norm_num)
      (by decide)
  have h3 : plane_layout GstVideoFormat.I420 1920 1080 = some
      { stride := [1920, 960, 960, 0], slice := [1080, 540, 540, 0],
        offset := [0, 2073600, 2592000, 0] } := by decide
  rw [h3] at h1
  simp only [Option.some.injEq] at h1
  subst h1
  exact ⟨_, h3, rfl, rfl, rfl, h2⟩

/-- Counterexample to C15 as stated: with stride 0 and slice height `2 ^ 31`
every product is 0 and fits in 32 bits, yet plane 0 of the supported format
GRAY8 gets the slice `-2147483648`, not `H`; the same happens with stride 1,
where the product `2 ^ 31` still fits in 32 bits. -/
theorem plane_layout_spec_counterexample :
    (0 : Nat) * 2147483648 < 2 ^ 32 ∧
    plane_layout GstVideoFormat.GRAY8 0 2147483648 = some
      { stride := [0, 0, 0, 0], slice := [-2147483648, 0, 0, 0], offset := [0, 0, 0, 0] } ∧
    (1 : Nat) * 2147483648 < 2 ^ 32 ∧
    plane_layout GstVideoFormat.NV12 1 2147483648 = some
      { stride := [1, 1, 0, 0], slice := [-2147483648, 1073741824, 0, 0],
        offset := [0, 2147483648, 0, 0] } ∧
    (-2147483648 : Int) ≠ ((2147483648 : Nat) : Int) := by
  refine ⟨by norm_num, by decide, by norm_num, by decide, by decide⟩

/-- C12 (amended).  The pool keeps no record of the buffers that consumers hold.
What it guarantees about a pool bound to a component and a port is:
acquire on an output port or on the input port of an encoder makes no call
that leaves the pool, so it never hands a slot to the hardware port; on the
input port of an encoder with `1 ≤ nBufferCountActual < 2 ^ 32` a successful
acquire hands out a buffer whose slot is not in-flight; and release of a
buffer whose slot is in-flight does nothing. -/
theorem pool_ownership (env : Env) (s : St) (port : GstOMXPort)
    (hport : s.pool.port = some port) (hcomp : s.pool.component = true) :
    (port.port_def.eDir = OMX_DIRTYPE.OMX_DirOutput ∨ s.pool.element.is_video_enc = true →
      ∀ r, gst_omx_buffer_pool_acquire_buffer env s = Run.done r → r.st.trace = s.trace) ∧
    (port.port_def.eDir ≠ OMX_DIRTYPE.OMX_DirOutput → s.pool.element.is_video_enc = true →
      1 ≤ port.port_def.nBufferCountActual → port.port_def.nBufferCountActual < 2 ^ 32 →
      ∀ r, gst_omx_buffer_pool_acquire_buffer env s = Run.done r →
        r.ret = GstFlowReturn.GST_FLOW_OK →
        ∃ b omx_buf, r.buffer = some b ∧
          slot_of_buffer port s.pool.buffers b = some omx_buf ∧ omx_buf.used = false) ∧
    (∀ b omx_buf, slot_of_buffer port s.pool.buffers b = some omx_buf →
      omx_buf.used = true → gst_omx_buffer_pool_release_buffer env s b = Run.done s) := by
  refine ⟨?_, ?_, ?_⟩
  · intro hd r hr
    simp only [gst_omx_buffer_pool_acquire_buffer, hport] at hr
    by_cases hout : port.port_def.eDir = OMX_DIRTYPE.OMX_DirOutput
    · rw [if_pos hout] at hr
      unfold acquire_buffer_output at hr
      split at hr
      · simp only [Run.done.injEq] at hr; subst hr; rfl
      · split at hr
        · cases hr
        · simp only [Run.done.injEq] at hr; subst hr; rfl
        · split at hr
          · split at hr
            · cases hr
            · split at hr
              · cases hr
              · split at hr
                · cases hr
                · split at hr
                  · simp only [Run.done.injEq] at hr; subst hr; rfl
                  · cases hr
          · simp only [Run.done.injEq] at hr; subst hr; rfl
    · have henc : s.pool.element.is_video_enc = true := by
        rcases hd with h | h
        · exact absurd h hout
        · exact h
      rw [if_neg hout, if_pos henc] at hr
      unfold acquire_buffer_enc at hr
      split at hr
      · split at hr
        · simp only [Run.done.injEq] at hr; subst hr; rfl
        · split at hr
          · simp only [Run.done.injEq] at hr; subst hr; rfl
          · simp only [Run.done.injEq] at hr; subst hr; rfl
      · cases hr
      · cases hr
      · cases hr
  · intro hout henc h1 h2 r hr hok
    simp only [gst_omx_buffer_pool_acquire_buffer, hport] at hr
    rw [if_neg hout, if_pos henc] at hr
    unfold acquire_buffer_enc at hr
    split at hr
    · rename_i res hres
      split at hr
      · simp only [Run.done.injEq] at hr; subst hr; cases hok
      · rename_i pos hpos
        split at hr
        · simp only [Run.done.injEq] at hr; subst hr; cases hok
        · rename_i hne
          simp only [Run.done.injEq] at hr; subst hr
          have hsound := enc_search_loop_sound port s.pool.buffers _ _ _ _ _ pos hres
            (by
              have h0 : gint_bits 0 = 0 := by decide
              rw [h0]
              exact three_mul_mod_ne_zero h1 h2) hpos
          rcases hsound with hs | ⟨omx_buf, hs1, hs2⟩
          · exact absurd hs hne
          · exact ⟨pos, omx_buf, rfl, hs1, hs2⟩
    · cases hr
    · cases hr
    · cases hr
  · intro b omx_buf hs hu
    unfold slot_of_buffer at hs
    split at hs
    · rename_i buf hb
      split at hs
      · rename_i slot hq
        split at hs
        · rename_i ob hsl
          simp only [Option.some.injEq] at hs
          subst hs
          simp [gst_omx_buffer_pool_release_buffer, hcomp, hport, hb, hq, hsl, hu]
        · cases hs
      · cases hs
    · cases hs

/-- Witness of `pool_ownership` on the one-slot encoder input pool with an idle
slot: acquire succeeds with the buffer at position 0, whose slot is not
in-flight, and makes no external call. -/
theorem pool_ownership_witness :
    (∀ r, gst_omx_buffer_pool_acquire_buffer example_env (example_enc_input_st true false)
        = Run.done r → r.st.trace = (example_enc_input_st true false).trace) ∧
    (∃ r b omx_buf,
      gst_omx_buffer_pool_acquire_buffer example_env (example_enc_input_st true false)
        = Run.done r ∧ r.ret = GstFlowReturn.GST_FLOW_OK ∧ r.buffer = some b ∧
      slot_of_buffer
        { port_def := { eDir := OMX_DIRTYPE.OMX_DirInput, nBufferCountActual := 1,
                        nBufferAlignment := 64, nStride := 1920, nSliceHeight := 1080 },
          buffers := [some { used := false, nAllocLen := 3110400, nFilledLen := 0,
                             nOffset := 0, pOutputPortPrivate := none }] }
        (example_enc_input_st true false).pool.buffers b = some omx_buf ∧
      omx_buf.used = false) := by
  obtain ⟨h1, h2, -⟩ := pool_ownership example_env (example_enc_input_st true false)
    { port_def := { eDir := OMX_DIRTYPE.OMX_DirInput, nBufferCountActual := 1,
                    nBufferAlignment := 64, nStride := 1920, nSliceHeight := 1080 },
      buffers := [some { used := false, nAllocLen := 3110400, nFilledLen := 0,
                         nOffset := 0, pOutputPortPrivate := none }] } rfl rfl
  refine ⟨h1 (Or.inr rfl), ?_⟩
  have hrun : ∃ r, gst_omx_buffer_pool_acquire_buffer example_env
      (example_enc_input_st true false) = Run.done r ∧ r.ret = GstFlowReturn.GST_FLOW_OK :=
    ⟨{ ret := GstFlowReturn.GST_FLOW_OK, buffer := some 0,
       st := example_enc_input_st true false, probed := [0] }, by decide, rfl⟩
  obtain ⟨r, hr, hok⟩ := hrun
  obtain ⟨b, omx_buf, hb, hs, hu⟩ := h2 (by decide) rfl (by decide) (by decide) r hr hok
  exact ⟨r, b, omx_buf, hr, hok, hb, hs, hu⟩

/-- Counterexample to C12 as stated: on the one-slot encoder input pool two
successive acquires, with no release and no hardware event in between, both
succeed and both hand out the buffer at position 0. -/
theorem pool_ownership_counterexample :
    ∃ r1 r2,
      gst_omx_buffer_pool_acquire_buffer example_env (example_enc_input_st true false)
        = Run.done r1 ∧
      r1.ret = GstFlowReturn.GST_FLOW_OK ∧ r1.buffer = some 0 ∧ r1.st.trace = [] ∧
      gst_omx_buffer_pool_acquire_buffer example_env r1.st = Run.done r2 ∧
      r2.ret = GstFlowReturn.GST_FLOW_OK ∧ r2.buffer = some 0 ∧ r2.st.trace = [] := by
  refine ⟨{ ret := GstFlowReturn.GST_FLOW_OK, buffer := some 0,
            st := example_enc_input_st true false, probed := [0] },
          { ret := GstFlowReturn.GST_FLOW_OK, buffer := some 0,
            st := example_enc_input_st true false, probed := [0] },
          by decide, rfl, rfl, rfl, by decide, rfl, rfl, rfl⟩

/-- C4.  On an output port, with no borrowed pool and dmabuf disabled, when
`current_buffer_index` is the valid position `n` of a buffer whose first
memory is a direct OMX view of the slot `slot`, acquire returns
`GST_FLOW_OK` with exactly the buffer at position `n`, without any search or
external call; the size of the buffer's first memory becomes the slot's
`nFilledLen`, its offset the slot's `nOffset`, and nothing else changes, so
`current_buffer_index` stays as it was. -/
theorem acquire_output_refreshes_region (env : Env) (s : St) (port : GstOMXPort) (n slot : Nat)
    (buf : GstBuffer) (mem : GstMemory) (rest : List GstMemory) (omx_buf : GstOMXBuffer)
    (hport : s.pool.port = some port)
    (hdir : port.port_def.eDir = OMX_DIRTYPE.OMX_DirOutput)
    (hother : s.pool.other_pool = none) (hdma : s.pool.element.use_dmabuf = false)
    (hidx : s.pool.current_buffer_index = (n : Int))
    (hbuf : s.pool.buffers[n]? = some (some buf))
    (hmem : buf.memory = mem :: rest) (htype : mem.mem_type = MemType.openmax)
    (hview : mem.buf = some slot) (hslot : port.buffers[slot]? = some (some omx_buf)) :
    ∃ r : AcquireResult,
      gst_omx_buffer_pool_acquire_buffer env s = Run.done r ∧
      r.ret = GstFlowReturn.GST_FLOW_OK ∧ r.buffer = some n ∧ r.probed = [] ∧
      r.st.trace = s.trace ∧
      r.st.pool.current_buffer_index = s.pool.current_buffer_index ∧
      r.st.pool = { s.pool with buffers := s.pool.buffers.set n (some
        { buf with memory :=
            { mem with size := omx_buf.nFilledLen, offset := omx_buf.nOffset } :: rest }) } ∧
      ∃ buf1 mem1, r.st.pool.buffers[n]? = some (some buf1) ∧ buf1.memory.head? = some mem1 ∧
        mem1.size = omx_buf.nFilledLen ∧ mem1.offset = omx_buf.nOffset := by
  have hn : ¬ ((n : Int) < 0) := by omega
  have hne : ¬ ((n : Int) = -1) := by omega
  have hlen : n < s.pool.buffers.length := by
    by_contra hc
    rw [List.getElem?_eq_none (by omega)] at hbuf
    cases hbuf
  refine ⟨{ ret := GstFlowReturn.GST_FLOW_OK, buffer := some n, probed := [],
            st := { s with pool := { s.pool with buffers := s.pool.buffers.set n (some
              { buf with memory :=
                  { mem with size := omx_buf.nFilledLen, offset := omx_buf.nOffset }
                    :: rest }) } } },
    ?_, rfl, rfl, rfl, rfl, rfl, rfl, ?_⟩
  · simp [gst_omx_buffer_pool_acquire_buffer, hport, hdir, acquire_buffer_output, hidx, hne,
      g_ptr_array_index, hn, hbuf, hother, hdma, hmem, htype, hview, hslot]
  · refine ⟨{ buf with memory :=
        { mem with size := omx_buf.nFilledLen, offset := omx_buf.nOffset } :: rest },
      { mem with size := omx_buf.nFilledLen, offset := omx_buf.nOffset }, ?_, rfl, rfl, rfl⟩
    simp [hlen]

/-- Witness of `acquire_output_refreshes_region`: a slot with filled length
4096 and offset 0 gives a region of size 4096 at offset 0. -/
theorem acquire_output_refreshes_region_witness :
    ∃ r : AcquireResult,
      gst_omx_buffer_pool_acquire_buffer example_env example_output_st = Run.done r ∧
      r.ret = GstFlowReturn.GST_FLOW_OK ∧ r.buffer = some 0 ∧
      r.st.pool.current_buffer_index = 0 ∧
      ∃ buf1 mem1, r.st.pool.buffers[0]? = some (some buf1) ∧ buf1.memory.head? = some mem1 ∧
        mem1.size = 4096 ∧ mem1.offset = 0 := by
  obtain ⟨r, h1, h2, h3, -, -, h4, -, h5⟩ :=
    acquire_output_refreshes_region example_env example_output_st
      { port_def := { eDir := OMX_DIRTYPE.OMX_DirOutput, nBufferCountActual := 1,
                      nBufferAlignment := 64, nStride := 1920, nSliceHeight := 1080 },
        buffers := [some { used := false, nAllocLen := 3110400, nFilledLen := 4096,
                           nOffset := 0, pOutputPortPrivate := none }] }
      0 0
      { pool := none,
        memory := [{ flags := 16, mem_type := MemType.openmax, maxsize := 3110400,
                     align := 63, offset := 0, size := 3110400, buf := some 0, fd := none }],
        video_meta := none, qdata := some 0 }
      { flags := 16, mem_type := MemType.openmax, maxsize := 3110400, align := 63,
        offset := 0, size := 3110400, buf := some 0, fd := none }
      []
      { used := false, nAllocLen := 3110400, nFilledLen := 4096, nOffset := 0,
        pOutputPortPrivate := none }
      rfl rfl rfl rfl rfl rfl rfl rfl rfl rfl
  exact ⟨r, h1, h2, h3, h4, h5⟩

/-- C7.  On a pool bound to a component and a port, for a buffer associated
with an existing slot: when the pool is neither allocating nor deactivated,
the port is an output port and the slot is not in-flight, release makes
exactly one call of `gst_omx_port_release_buffer` for that slot (followed by
an element error when the port reports a failure); in every other case
release makes no call: it returns with the state untouched, or stops at
`g_assert_not_reached` (running pool, non-output port, slot not in-flight,
`no_copy` off).  When the pool is allocating or deactivated it returns at
once with the state untouched.  In every case the buffer array, the indices
and the configuration of the pool are unchanged. -/
theorem release_buffer_frame (env : Env) (s : St) (port : GstOMXPort) (buffer slot : Nat)
    (buf : GstBuffer) (omx_buf : GstOMXBuffer)
    (hcomp : s.pool.component = true) (hport : s.pool.port = some port)
    (hbuf : s.pool.buffers[buffer]? = some (some buf)) (hq : buf.qdata = some slot)
    (hslot : port.buffers[slot]? = some (some omx_buf)) :
    ((s.pool.allocating = false ∧ s.pool.deactivated = false ∧
        port.port_def.eDir = OMX_DIRTYPE.OMX_DirOutput ∧ omx_buf.used = false) →
      gst_omx_buffer_pool_release_buffer env s buffer = Run.done
        { pool := { s.pool with port := some (env.gst_omx_port_release_buffer s.trace port slot).2 },
          trace := s.trace
            ++ [Event.port_release slot (env.gst_omx_port_release_buffer s.trace port slot).1]
            ++ (if (env.gst_omx_port_release_buffer s.trace port slot).1 ≠ 0
                then [Event.element_error] else []) }) ∧
    (¬ (s.pool.allocating = false ∧ s.pool.deactivated = false ∧
        port.port_def.eDir = OMX_DIRTYPE.OMX_DirOutput ∧ omx_buf.used = false) →
      gst_omx_buffer_pool_release_buffer env s buffer = Run.done s ∨
      (gst_omx_buffer_pool_release_buffer env s buffer = Run.abort ∧
        s.pool.allocating = false ∧ s.pool.deactivated = false ∧
        port.port_def.eDir ≠ OMX_DIRTYPE.OMX_DirOutput ∧ omx_buf.used = false ∧
        s.pool.element.no_copy = false)) ∧
    ((s.pool.allocating = true ∨ s.pool.deactivated = true) →
      ∀ b, gst_omx_buffer_pool_release_buffer env s b = Run.done s) ∧
    (∀ b s1, gst_omx_buffer_pool_release_buffer env s b = Run.done s1 →
      s1.pool.buffers = s.pool.buffers ∧
      s1.pool.current_buffer_index = s.pool.current_buffer_index ∧
      s1.pool.enc_buffer_index = s.pool.enc_buffer_index ∧
      s1.pool.caps = s.pool.caps ∧ s1.pool.video_info = s.pool.video_info ∧
      s1.pool.add_videometa = s.pool.add_videometa ∧ s1.pool.need_copy = s.pool.need_copy ∧
      s1.pool.other_pool = s.pool.other_pool ∧ s1.pool.allocating = s.pool.allocating ∧
      s1.pool.deactivated = s.pool.deactivated ∧ s1.pool.allocator = s.pool.allocator ∧
      s1.pool.id_array = s.pool.id_array ∧ s1.pool.element = s.pool.element ∧
      s1.pool.component = s.pool.component) := by
  refine ⟨?_, ?_, ?_, ?_⟩
  · rintro ⟨h1, h2, h3, h4⟩
    simp only [gst_omx_buffer_pool_release_buffer, hcomp, hport, h1, h2, hbuf, hq, hslot, h3, h4]
    simp
    split <;> simp_all
  · intro hc
    simp only [gst_omx_buffer_pool_release_buffer, hcomp, hport, hbuf, hq, hslot]
    by_cases ho : port.port_def.eDir = OMX_DIRTYPE.OMX_DirOutput <;>
      cases ha : s.pool.allocating <;> cases hd : s.pool.deactivated <;>
      cases hu : omx_buf.used <;> cases hnc : s.pool.element.no_copy <;> simp_all
  · intro hc b
    simp only [gst_omx_buffer_pool_release_buffer, hcomp, hport]
    rcases hc with h | h <;> simp [h]
  · intro b s1 hr
    simp only [gst_omx_buffer_pool_release_buffer, hcomp, hport] at hr
    split at hr
    · split at hr
      · split at hr
        · cases hr
        · split at hr
          · split at hr
            · simp only [Run.done.injEq] at hr
              subst hr
              simp [hcomp]
            · split at hr
              · split at hr
                · cases hr
                · simp only [Run.done.injEq] at hr; subst hr; simp
              · simp only [Run.done.injEq] at hr; subst hr; simp
          · cases hr
      · cases hr
    · simp only [Run.done.injEq] at hr; subst hr; simp

/-- Witness of `release_buffer_frame`: releasing the buffer of the running
example output pool hands slot `0` back to the port, once. -/
theorem release_buffer_frame_witness :
    gst_omx_buffer_pool_release_buffer example_env example_output_st 0
      = Run.done { example_output_st with trace := [Event.port_release 0 0] } :=
  (release_buffer_frame example_env example_output_st
    { port_def := { eDir := OMX_DIRTYPE.OMX_DirOutput, nBufferCountActual := 1,
                    nBufferAlignment := 64, nStride := 1920, nSliceHeight := 1080 },
      buffers := [some { used := false, nAllocLen := 3110400, nFilledLen := 4096,
                         nOffset := 0, pOutputPortPrivate := none }] }
    0 0
    { pool := none,
      memory := [{ flags := 16, mem_type := MemType.openmax, maxsize := 3110400, align := 63,
                   offset := 0, size := 3110400, buf := some 0, fd := none }],
      video_meta := none, qdata := some 0 }
    { used := false, nAllocLen := 3110400, nFilledLen := 4096, nOffset := 0,
      pOutputPortPrivate := none }
    rfl rfl rfl rfl rfl).1 ⟨rfl, rfl, rfl, rfl⟩

theorem getElem?_eq_some_getD {α : Type} (l : List α) (i : Nat) (d : α) (h : i < l.length) :
    l[i]? = some (l.getD i d) := by
  rw [List.getD_eq_getElem?_getD, List.getElem?_eq_getElem h]
  rfl

/-- The arrays of a plane layout have `GST_VIDEO_MAX_PLANES` entries. -/
theorem plane_layout_length {format : GstVideoFormat} {a b : Nat} {layout : PlaneLayout}
    (h : plane_layout format a b = some layout) :
    layout.stride.length = 4 ∧ layout.slice.length = 4 ∧ layout.offset.length = 4 := by
  cases format <;> simp only [plane_layout, Option.some.injEq] at h <;>
    first
    | (subst h; exact ⟨rfl, rfl, rfl⟩)
    | cases h

/-- When the memory manager answers the requests of some planes and fails the
next one, the export loop returns NULL and has appended the identifiers of
the exported planes to `id_array`. -/
theorem dmabuf_plane_loop_fails (env : Env) (base : Nat) (stride slice : List Int)
    (offset : List Nat) :
    ∀ (answers : List (Int × Int)) (remaining i : Nat) (mems : List GstMemory)
      (ids : List Int) (trace : List Event),
      answers.length < remaining →
      (∀ j, j ≤ answers.length →
        i + j < offset.length ∧ i + j < stride.length ∧ i + j < slice.length) →
      exports_then_fails env base stride slice offset i trace answers →
      ∃ tr, dmabuf_plane_loop env PoolAllocator.dmabuf base stride slice offset remaining i
          mems ids trace
        = Run.done { memory := none, id_array := ids ++ answers.map Prod.fst, trace := tr } := by
  intro answers
  induction answers with
  | nil =>
    intro remaining i mems ids trace hlt hlen hexp
    obtain ⟨r, rfl⟩ : ∃ r, remaining = r + 1 := ⟨remaining - 1, by simp at hlt; omega⟩
    obtain ⟨h1, h2, h3⟩ := hlen 0 (Nat.le_refl _)
    rw [Nat.add_zero] at h1 h2 h3
    simp only [exports_then_fails, plane_request] at hexp
    rw [dmabuf_plane_loop]
    simp only [getElem?_eq_some_getD offset i 0 h1, getElem?_eq_some_getD stride i 0 h2,
      getElem?_eq_some_getD slice i 0 h3, hexp, List.map_nil, List.append_nil]
    exact ⟨_, rfl⟩
  | cons a rest ih =>
    intro remaining i mems ids trace hlt hlen hexp
    obtain ⟨r, rfl⟩ : ∃ r, remaining = r + 1 := ⟨remaining - 1, by simp at hlt; omega⟩
    obtain ⟨h1, h2, h3⟩ := hlen 0 (Nat.zero_le _)
    rw [Nat.add_zero] at h1 h2 h3
    simp only [exports_then_fails, plane_request] at hexp
    obtain ⟨hans, hrest⟩ := hexp
    obtain ⟨id, fd⟩ := a
    rw [dmabuf_plane_loop]
    simp only [getElem?_eq_some_getD offset i 0 h1, getElem?_eq_some_getD stride i 0 h2,
      getElem?_eq_some_getD slice i 0 h3, hans, gst_dmabuf_allocator_alloc]
    obtain ⟨tr, htr⟩ := ih r (i + 1) _ (ids ++ [id]) _ (by simp at hlt; omega)
      (by
        intro j hj
        have := hlen (j + 1) (by simp; omega)
        have e : i + (j + 1) = i + 1 + j := by omega
        rw [e] at this
        exact this)
      hrest
    refine ⟨tr, ?_⟩
    rw [htr]
    simp

/-- C10 (amended).  In the dmabuf strategy of `gst_omx_buffer_pool_alloc_buffer`, with at
most `GST_VIDEO_MAX_PLANES` planes: when the memory manager exports the first
`k` planes (`k` below the plane count) and fails the next one, the call
returns `GST_FLOW_ERROR`, stores no buffer in `*buffer`, leaves the buffer
array and the allocation index as they were, and has appended the `k`
identifiers to `id_array`; `gst_omx_buffer_pool_finalize` then makes, in addition to its
calls for the earlier entries, one `mmngr_export_end_in_user_ext` call for
each of these identifiers that is not negative and none for a negative one. -/
theorem alloc_buffer_export_failure (env : Env) (s : St) (port : GstOMXPort)
    (omx_buf : GstOMXBuffer) (base : Nat) (layout : PlaneLayout) (answers : List (Int × Int))
    (halloc : s.pool.allocating = true) (hport : s.pool.port = some port)
    (hslot : g_ptr_array_index port.buffers s.pool.current_buffer_index = some (some omx_buf))
    (hother : s.pool.other_pool = none)
    (hlayout : plane_layout s.pool.video_info.format port.port_def.nStride
      port.port_def.nSliceHeight = some layout)
    (hdec : s.pool.element.is_video_dec = true) (hdma : s.pool.element.use_dmabuf = true)
    (hpriv : omx_buf.pOutputPortPrivate = some base)
    (hk : answers.length < s.pool.video_info.n_planes)
    (hplanes : s.pool.video_info.n_planes ≤ 4)
    (hexp : exports_then_fails env base layout.stride layout.slice layout.offset 0 s.trace
      answers) :
    ∃ s1 : St,
      gst_omx_buffer_pool_alloc_buffer env s
        = Run.done { ret := GstFlowReturn.GST_FLOW_ERROR, buffer := none, st := s1 } ∧
      s1.pool.buffers = s.pool.buffers ∧
      s1.pool.current_buffer_index = s.pool.current_buffer_index ∧
      s1.pool.id_array = s.pool.id_array ++ answers.map Prod.fst ∧
      gst_omx_buffer_pool_finalize s1.pool
        = gst_omx_buffer_pool_finalize s.pool ++
          (answers.map Prod.fst).map
            (fun id => if id ≥ 0 then Event.export_end id else Event.invalid_dmabuf_id) := by
  obtain ⟨l1, l2, l3⟩ := plane_layout_length hlayout
  obtain ⟨tr, htr⟩ := dmabuf_plane_loop_fails env base layout.stride layout.slice layout.offset
    answers s.pool.video_info.n_planes 0 [] s.pool.id_array s.trace hk
    (by intro j hj; rw [l1, l2, l3]; omega) hexp
  refine ⟨{ pool := { s.pool with allocator := PoolAllocator.dmabuf,
                                  id_array := s.pool.id_array ++ answers.map Prod.fst },
            trace := tr }, ?_, rfl, rfl, rfl, ?_⟩
  · simp only [gst_omx_buffer_pool_alloc_buffer, halloc, hport, hslot, hother, hlayout, hdec,
      hdma, hpriv, alloc_buffer_dmabuf, gst_omx_buffer_pool_create_buffer_contain_dmabuf]
    simp only [Bool.not_true, Bool.false_eq_true, if_false, Bool.and_self]
    rw [htr]
  · simp [gst_omx_buffer_pool_finalize, hdma]

/-- Witness of `alloc_buffer_export_failure`: on the NV12 example the first
plane is exported with identifier 7 and the second export fails. -/
theorem alloc_buffer_export_failure_witness :
    ∃ s1 : St,
      gst_omx_buffer_pool_alloc_buffer (example_failing_env 7) example_dmabuf_st
        = Run.done { ret := GstFlowReturn.GST_FLOW_ERROR, buffer := none, st := s1 } ∧
      s1.pool.buffers = [] ∧ s1.pool.current_buffer_index = 0 ∧ s1.pool.id_array = [7] ∧
      gst_omx_buffer_pool_finalize s1.pool = [Event.export_end 7] := by
  obtain ⟨s1, h1, h2, h3, h4, h5⟩ := alloc_buffer_export_failure (example_failing_env 7)
    example_dmabuf_st
    { port_def := { eDir := OMX_DIRTYPE.OMX_DirOutput, nBufferCountActual := 1,
                    nBufferAlignment := 64, nStride := 1920, nSliceHeight := 1080 },
      buffers := [some { used := false, nAllocLen := 3110400, nFilledLen := 0,
                         nOffset := 0, pOutputPortPrivate := some 0x10000010 }] }
    { used := false, nAllocLen := 3110400, nFilledLen := 0, nOffset := 0,
      pOutputPortPrivate := some 0x10000010 }
    0x10000010
    { stride := [1920, 1920, 0, 0], slice := [1080, 540, 0, 0], offset := [0, 2073600, 0, 0] }
    [(7, 20)] rfl rfl rfl rfl (by decide) rfl rfl rfl (by decide) (by decide)
    ⟨rfl, rfl⟩
  exact ⟨s1, h1, h2, h3, h4, h5⟩

/-- Counterexample to C10 as stated: the memory manager exports the first plane
with the identifier `-1` and fails the second one; the identifier is
retained in `id_array`, yet `gst_omx_buffer_pool_finalize` makes no export-end call for
it. -/
theorem alloc_buffer_export_failure_counterexample :
    ∃ s1 : St,
      gst_omx_buffer_pool_alloc_buffer (example_failing_env (-1)) example_dmabuf_st
        = Run.done { ret := GstFlowReturn.GST_FLOW_ERROR, buffer := none, st := s1 } ∧
      s1.trace = [Event.export_start 268435472 2076672 (some (-1, 20)),
                  Event.export_start 270509072 1040384 none] ∧
      s1.pool.id_array = [-1] ∧
      gst_omx_buffer_pool_finalize s1.pool = [Event.invalid_dmabuf_id] ∧
      Event.export_end (-1) ∉ gst_omx_buffer_pool_finalize s1.pool := by
  refine ⟨{ pool := { example_dmabuf_st.pool with id_array := [-1] },
            trace := [Event.export_start 268435472 2076672 (some (-1, 20)),
                      Event.export_start 270509072 1040384 none] },
    by decide, rfl, rfl, by decide, by decide⟩

/-- Incrementing a wrapped counter is incrementing and wrapping once. -/
theorem to_gint_to_gint_succ (x : Int) : to_gint (to_gint x + 1) = to_gint (x + 1) := by
  unfold to_gint
  omega

/-- A count below `2 ^ 32`, stored in a `gint` and read as unsigned, is itself. -/
theorem gint_bits_to_gint_natCast {m : Nat} (h : m < 4294967296) :
    gint_bits (to_gint (m : Int)) = m := by
  unfold gint_bits to_gint
  norm_num
  omega

/-- The cursor after one probe: incremented and wrapped at `n`. -/
theorem enc_cursor_step {idx n : Nat} (h : idx < n) :
    (if idx + 1 = n then 0 else idx + 1) = (idx + 1) % n := by
  split
  · rename_i he
    rw [he, Nat.mod_self]
  · rw [Nat.mod_eq_of_lt (by omega)]

/-- One execution of the body of the search loop on a buffer whose slot exists. -/
theorem enc_search_loop_step (port : GstOMXPort) (buffers : List (Option GstBuffer))
    (fuel idx : Nat) (cnt : Int) (probed : List Nat) (omx_buf : GstOMXBuffer)
    (h : slot_of_buffer port buffers idx = some omx_buf) :
    enc_search_loop port buffers (fuel + 1) idx cnt probed
      = if omx_buf.used && decide (gint_bits (to_gint (cnt + 1))
            < to_guint (port.port_def.nBufferCountActual * 3)) then
          enc_search_loop port buffers fuel
            (if idx + 1 = port.port_def.nBufferCountActual then 0 else idx + 1)
            (to_gint (cnt + 1)) (probed ++ [idx])
        else
          Run.done { buf := some idx,
                     enc_buffer_index :=
                       if idx + 1 = port.port_def.nBufferCountActual then 0 else idx + 1,
                     count := to_gint (cnt + 1), probed := probed ++ [idx] } := by
  unfold slot_of_buffer at h
  split at h
  · rename_i buf hb
    split at h
    · rename_i slot hq
      split at h
      · rename_i ob hs
        simp only [Option.some.injEq] at h
        subst h
        rw [enc_search_loop]
        simp only [hb, hq, hs]
      · cases h
    · cases h
  · cases h

/-- With every probed slot in-flight, the search loop runs until the counter
reaches the bound `3 * n`. -/
theorem enc_search_loop_exhausts (port : GstOMXPort) (buffers : List (Option GstBuffer))
    (n : Nat) (hn : port.port_def.nBufferCountActual = n) (h1 : 1 ≤ n)
    (h3n : 3 * n < 2 ^ 32)
    (hused : ∀ i, i < n → ∃ omx_buf, slot_of_buffer port buffers i = some omx_buf ∧
      omx_buf.used = true) :
    ∀ (m fuel idx cnt : Nat) (probed : List Nat),
      1 ≤ m → m ≤ fuel → idx < n → cnt + m = 3 * n →
      enc_search_loop port buffers fuel idx (to_gint (cnt : Int)) probed
        = Run.done { buf := some ((idx + (m - 1)) % n), enc_buffer_index := (idx + m) % n,
                     count := to_gint ((3 * n : Nat) : Int),
                     probed := probed ++ (List.range m).map (fun j => (idx + j) % n) } := by
  have hB : to_guint (port.port_def.nBufferCountActual * 3) = 3 * n := by
    rw [hn, Nat.mul_comm]
    exact Nat.mod_eq_of_lt h3n
  have hlim : 3 * n < 4294967296 := h3n
  clear h3n
  intro m
  induction m with
  | zero => intro fuel idx cnt probed hm; omega
  | succ m ih =>
    intro fuel idx cnt probed _ hf hidx hcnt
    obtain ⟨f, rfl⟩ : ∃ f, fuel = f + 1 := ⟨fuel - 1, by omega⟩
    obtain ⟨omx_buf, hs, hu⟩ := hused idx hidx
    have hc1 : to_gint ((cnt : Int) + 1) = to_gint (((cnt + 1 : Nat) : Int)) := by
      push_cast; rfl
    rw [enc_search_loop_step port buffers f idx _ probed omx_buf hs, to_gint_to_gint_succ,
      hc1, gint_bits_to_gint_natCast (by omega), hB, hu, hn, enc_cursor_step hidx]
    rcases Nat.eq_zero_or_pos m with rfl | hm
    · have e : cnt + 1 = 3 * n := by omega
      simp only [e, Nat.lt_irrefl, decide_False, Bool.and_false, Bool.false_eq_true, if_false]
      simp [List.range_succ, Nat.mod_eq_of_lt hidx]
    · have hlt : cnt + 1 < 3 * n := by omega
      simp only [hlt, decide_True, Bool.and_true, if_true]
      rw [ih f ((idx + 1) % n) (cnt + 1) (probed ++ [idx]) hm (by omega)
        (Nat.mod_lt _ (by omega)) (by omega)]
      have hshift : ∀ j, ((idx + 1) % n + j) % n = (idx + (j + 1)) % n := by
        intro j
        have e : idx + 1 + j = idx + (j + 1) := by omega
        rw [Nat.mod_add_mod, e]
      have e1 : ((idx + 1) % n + (m - 1)) % n = (idx + (m + 1 - 1)) % n := by
        have e : m + 1 - 1 = m - 1 + 1 := by omega
        rw [hshift, e]
      have e2 : ((idx + 1) % n + m) % n = (idx + (m + 1)) % n := hshift m
      have e3 : probed ++ [idx] ++ (List.range m).map (fun j => ((idx + 1) % n + j) % n)
          = probed ++ (List.range (m + 1)).map (fun j => (idx + j) % n) := by
        rw [List.range_succ_eq_map, List.map_cons, List.map_map, List.append_assoc]
        refine congrArg (fun l => probed ++ l) ?_
        simp only [List.singleton_append, Nat.add_zero, Nat.mod_eq_of_lt hidx, List.cons.injEq,
          true_and]
        apply List.map_congr_left
        intro j _
        simp only [Function.comp]
        exact hshift j
      rw [e1, e2, e3]

/-- With the slots of the next `k` buffers in-flight and the one after them
not, the search loop leaves with that buffer after `k + 1` probes. -/
theorem enc_search_loop_finds (port : GstOMXPort) (buffers : List (Option GstBuffer))
    (n : Nat) (hn : port.port_def.nBufferCountActual = n) (h3n : 3 * n < 2 ^ 32) :
    ∀ (k fuel idx cnt : Nat) (probed : List Nat),
      k < fuel → idx < n → cnt + k + 1 < 3 * n →
      (∀ j, j < k → ∃ omx_buf, slot_of_buffer port buffers ((idx + j) % n) = some omx_buf ∧
        omx_buf.used = true) →
      (∃ omx_buf, slot_of_buffer port buffers ((idx + k) % n) = some omx_buf ∧
        omx_buf.used = false) →
      enc_search_loop port buffers fuel idx (to_gint (cnt : Int)) probed
        = Run.done { buf := some ((idx + k) % n), enc_buffer_index := (idx + k + 1) % n,
                     count := to_gint ((cnt + k + 1 : Nat) : Int),
                     probed := probed ++ (List.range (k + 1)).map (fun j => (idx + j) % n) } := by
  have hB : to_guint (port.port_def.nBufferCountActual * 3) = 3 * n := by
    rw [hn, Nat.mul_comm]
    exact Nat.mod_eq_of_lt h3n
  have hlim : 3 * n < 4294967296 := h3n
  clear h3n
  intro k
  induction k with
  | zero =>
    intro fuel idx cnt probed hf hidx hcnt _ hfree
    obtain ⟨f, rfl⟩ : ∃ f, fuel = f + 1 := ⟨fuel - 1, by omega⟩
    obtain ⟨omx_buf, hs, hu⟩ := hfree
    rw [Nat.add_zero, Nat.mod_eq_of_lt hidx] at hs
    have hc1 : to_gint ((cnt : Int) + 1) = to_gint (((cnt + 1 : Nat) : Int)) := by
      push_cast; rfl
    rw [enc_search_loop_step port buffers f idx _ probed omx_buf hs, to_gint_to_gint_succ,
      hc1, hu, hn, enc_cursor_step hidx]
    simp [List.range_succ, Nat.mod_eq_of_lt hidx]
  | succ k ih =>
    intro fuel idx cnt probed hf hidx hcnt hused hfree
    obtain ⟨f, rfl⟩ : ∃ f, fuel = f + 1 := ⟨fuel - 1, by omega⟩
    obtain ⟨omx_buf, hs, hu⟩ := hused 0 (Nat.succ_pos k)
    rw [Nat.add_zero, Nat.mod_eq_of_lt hidx] at hs
    have hc1 : to_gint ((cnt : Int) + 1) = to_gint (((cnt + 1 : Nat) : Int)) := by
      push_cast; rfl
    have hlt : cnt + 1 < 3 * n := by omega
    rw [enc_search_loop_step port buffers f idx _ probed omx_buf hs, to_gint_to_gint_succ,
      hc1, gint_bits_to_gint_natCast (by omega), hB, hu, hn, enc_cursor_step hidx]
    simp only [hlt, decide_True, Bool.and_true, if_true]
    have hshift : ∀ j, ((idx + 1) % n + j) % n = (idx + (j + 1)) % n := by
      intro j
      have e : idx + 1 + j = idx + (j + 1) := by omega
      rw [Nat.mod_add_mod, e]
    rw [ih f ((idx + 1) % n) (cnt + 1) (probed ++ [idx]) (by omega)
      (Nat.mod_lt _ (by omega)) (by omega)
      (by
        intro j hj
        rw [hshift]
        exact hused (j + 1) (by omega))
      (by rw [hshift]; exact hfree)]
    have e1 : ((idx + 1) % n + k) % n = (idx + (k + 1)) % n := hshift k
    have e2 : ((idx + 1) % n + k + 1) % n = (idx + (k + 1) + 1) % n := by
      have := hshift (k + 1)
      rw [← Nat.add_assoc] at this
      exact this
    have e3 : probed ++ [idx] ++ (List.range (k + 1)).map (fun j => ((idx + 1) % n + j) % n)
        = probed ++ (List.range (k + 1 + 1)).map (fun j => (idx + j) % n) := by
      rw [List.range_succ_eq_map (k + 1), List.map_cons, List.map_map, List.append_assoc]
      refine congrArg (fun l => probed ++ l) ?_
      simp only [List.singleton_append, Nat.add_zero, Nat.mod_eq_of_lt hidx, List.cons.injEq,
        true_and]
      apply List.map_congr_left
      intro j _
      simp only [Function.comp]
      exact hshift j
    have e4 : ((cnt + 1 + k + 1 : Nat) : Int) = ((cnt + (k + 1) + 1 : Nat) : Int) := by
      have e : cnt + 1 + k + 1 = cnt + (k + 1) + 1 := by omega
      rw [e]
    rw [e1, e2, e3, e4]

/-- The slot behind buffer `i` of the example pool is slot `i` of the example port. -/
theorem example_enc_slot (n busy i : Nat) (hi : i < n) :
    slot_of_buffer (example_enc_port n busy) (example_enc_buffers n) i
      = some { used := decide (i < busy), nAllocLen := 3110400, nFilledLen := 0,
               nOffset := 0, pOutputPortPrivate := none } := by
  simp [slot_of_buffer, example_enc_port, example_enc_buffers, List.getElem?_map,
    List.getElem?_range, hi]

/-- C2 (amended).  Encoder input search with every slot in-flight: on a
non-output port of a video encoder with `n ≥ 1` slots
(`n = nBufferCountActual =` number of pool buffers), `3 * n < 2 ^ 32`, cursor
`c < n` and every buffer's slot marked used, `acquire` returns
`GST_FLOW_ERROR` without a buffer, has examined exactly the `3 * n`
candidates `c, c + 1, …` (cyclically), and leaves the state as it was, the
cursor back at `c`. -/
theorem enc_acquire_all_in_flight (env : Env) (s : St) (port : GstOMXPort) (n c : Nat)
    (hport : s.pool.port = some port)
    (hdir : port.port_def.eDir ≠ OMX_DIRTYPE.OMX_DirOutput)
    (henc : s.pool.element.is_video_enc = true)
    (hn : port.port_def.nBufferCountActual = n)
    (hlen : s.pool.buffers.length = n)
    (h1 : 1 ≤ n) (h3n : 3 * n < 2 ^ 32)
    (hc : s.pool.enc_buffer_index = c) (hcn : c < n)
    (hused : ∀ i, i < n →
      Option.map (fun o => o.used) (slot_of_buffer port s.pool.buffers i) = some true) :
    ∃ r, gst_omx_buffer_pool_acquire_buffer env s = Run.done r ∧
      r.ret = GstFlowReturn.GST_FLOW_ERROR ∧ r.buffer = none ∧
      r.probed = (List.range (3 * n)).map (fun j => (c + j) % n) ∧
      r.probed.length = 3 * n ∧ r.st = s := by
  have hused2 : ∀ i, i < n → ∃ omx_buf, slot_of_buffer port s.pool.buffers i = some omx_buf ∧
      omx_buf.used = true := by
    intro i hi
    have h := hused i hi
    rw [Option.map_eq_some'] at h
    exact h
  have hloop := enc_search_loop_exhausts port s.pool.buffers n hn h1 h3n hused2 (3 * n)
    (2 ^ 32) c 0 [] (by omega) (Nat.le_of_lt h3n) hcn (by omega)
  have hz : to_gint ((0 : Nat) : Int) = 0 := by decide
  rw [hz] at hloop
  have hB : to_guint (port.port_def.nBufferCountActual * 3) = 3 * n := by
    rw [hn, Nat.mul_comm]
    exact Nat.mod_eq_of_lt h3n
  have hcur : (c + 3 * n) % n = c := by
    rw [Nat.add_mul_mod_self_right, Nat.mod_eq_of_lt hcn]
  have hcount : gint_bits (to_gint ((3 * n : Nat) : Int)) = 3 * n :=
    gint_bits_to_gint_natCast h3n
  have hs : ({ s with pool := { s.pool with enc_buffer_index := c } } : St) = s := by
    subst hc
    rfl
  refine ⟨{ ret := GstFlowReturn.GST_FLOW_ERROR, buffer := none, st := s,
            probed := (List.range (3 * n)).map (fun j => (c + j) % n) }, ?_, rfl, rfl, rfl,
          by simp, rfl⟩
  unfold gst_omx_buffer_pool_acquire_buffer
  simp only [hport, hdir, henc, if_false, if_true]
  unfold acquire_buffer_enc
  rw [hc, hloop]
  simp only [hcount, hB, if_true, hcur, hs, List.nil_append]

/-- C3 (amended).  Encoder input search with a free slot: on a non-output
port of a video encoder with `n ≥ 1` slots, `3 * n < 2 ^ 32`, cursor `c < n`,
if the slots of the buffers `(c + j) % n` for `j < k` are in-flight and the
slot of the buffer `(c + k) % n` is not, then `k < n`, `acquire` returns
`GST_FLOW_OK` with the buffer at index `(c + k) % n` after examining the
`k + 1` candidates `c, …, c + k` (cyclically), and the cursor afterwards is
`(c + k + 1) % n`, which is below `n`; nothing else of the state changes. -/
theorem enc_acquire_first_unused (env : Env) (s : St) (port : GstOMXPort) (n c k : Nat)
    (hport : s.pool.port = some port)
    (hdir : port.port_def.eDir ≠ OMX_DIRTYPE.OMX_DirOutput)
    (henc : s.pool.element.is_video_enc = true)
    (hn : port.port_def.nBufferCountActual = n)
    (hlen : s.pool.buffers.length = n)
    (h1 : 1 ≤ n) (h3n : 3 * n < 2 ^ 32)
    (hc : s.pool.enc_buffer_index = c) (hcn : c < n)
    (hused : ∀ j, j < k →
      Option.map (fun o => o.used) (slot_of_buffer port s.pool.buffers ((c + j) % n))
        = some true)
    (hfree : Option.map (fun o => o.used) (slot_of_buffer port s.pool.buffers ((c + k) % n))
        = some false) :
    k < n ∧
    gst_omx_buffer_pool_acquire_buffer env s
      = Run.done { ret := GstFlowReturn.GST_FLOW_OK, buffer := some ((c + k) % n),
                   st := { s with pool := { s.pool with enc_buffer_index := (c + k + 1) % n } },
                   probed := (List.range (k + 1)).map (fun j => (c + j) % n) } ∧
    (c + k + 1) % n < n := by
  have hk : k < n := by
    by_contra hge
    have hge2 : n ≤ k := Nat.le_of_not_lt hge
    have h := hused (k - n) (by omega)
    have e : c + k = c + (k - n) + n := by omega
    rw [e, Nat.add_mod_right, h] at hfree
    cases hfree
  have hused2 : ∀ j, j < k → ∃ omx_buf,
      slot_of_buffer port s.pool.buffers ((c + j) % n) = some omx_buf ∧ omx_buf.used = true := by
    intro j hj
    have h := hused j hj
    rw [Option.map_eq_some'] at h
    exact h
  have hfree2 : ∃ omx_buf,
      slot_of_buffer port s.pool.buffers ((c + k) % n) = some omx_buf ∧ omx_buf.used = false := by
    rw [Option.map_eq_some'] at hfree
    exact hfree
  have hlim : 3 * n < 4294967296 := h3n
  have hloop := enc_search_loop_finds port s.pool.buffers n hn h3n k (2 ^ 32) c 0 []
    (by
      have e : (2 : Nat) ^ 32 = 4294967296 := by norm_num
      rw [e]
      omega)
    hcn (by omega) hused2 hfree2
  have hz : to_gint ((0 : Nat) : Int) = 0 := by decide
  rw [hz] at hloop
  have hB : to_guint (port.port_def.nBufferCountActual * 3) = 3 * n := by
    rw [hn, Nat.mul_comm]
    exact Nat.mod_eq_of_lt h3n
  have hcount : gint_bits (to_gint ((0 + k + 1 : Nat) : Int)) = 0 + k + 1 :=
    gint_bits_to_gint_natCast (by omega)
  have hne : ¬ (0 + k + 1 = 3 * n) := by omega
  refine ⟨hk, ?_, Nat.mod_lt _ (by omega)⟩
  unfold gst_omx_buffer_pool_acquire_buffer
  simp only [hport, hdir, henc, if_false, if_true]
  unfold acquire_buffer_enc
  rw [hc, hloop]
  simp only [hcount, hB, hne, if_false, List.nil_append, hport]

/-- Witness of `enc_acquire_all_in_flight`: four slots, all in-flight, cursor
at 0; acquire fails after exactly 12 probes. -/
theorem enc_acquire_all_in_flight_witness :
    ∃ r, gst_omx_buffer_pool_acquire_buffer example_env (example_enc_pool_st 4 4 0)
        = Run.done r ∧
      r.ret = GstFlowReturn.GST_FLOW_ERROR ∧ r.buffer = none ∧
      r.probed = (List.range (3 * 4)).map (fun j => (0 + j) % 4) ∧
      r.probed.length = 3 * 4 ∧ r.st = example_enc_pool_st 4 4 0 :=
  enc_acquire_all_in_flight example_env (example_enc_pool_st 4 4 0) (example_enc_port 4 4) 4 0
    rfl (by decide) rfl rfl (by decide) (by decide) (by decide) rfl (by decide) (by decide)

/-- Witness of `enc_acquire_first_unused`: four slots of which slots 0, 1, 2
are in-flight, cursor at 1; acquire probes 1, 2, 3, returns the buffer at
index 3 and the cursor wraps to 0. -/
theorem enc_acquire_first_unused_witness :
    2 < 4 ∧
    gst_omx_buffer_pool_acquire_buffer example_env (example_enc_pool_st 4 3 1)
      = Run.done { ret := GstFlowReturn.GST_FLOW_OK, buffer := some ((1 + 2) % 4),
                   st := { example_enc_pool_st 4 3 1 with
                           pool := { (example_enc_pool_st 4 3 1).pool with
                                     enc_buffer_index := (1 + 2 + 1) % 4 } },
                   probed := (List.range (2 + 1)).map (fun j => (1 + j) % 4) } ∧
    (1 + 2 + 1) % 4 < 4 :=
  enc_acquire_first_unused example_env (example_enc_pool_st 4 3 1) (example_enc_port 4 3) 4 1 2
    rfl (by decide) rfl rfl (by decide) (by decide) (by decide) rfl (by decide) (by decide)
    (by decide)

theorem example_enc_pool_st_buffers (n busy c : Nat) :
    (example_enc_pool_st n busy c).pool.buffers = example_enc_buffers n := rfl

theorem example_enc_pool_st_port (n busy c : Nat) :
    (example_enc_pool_st n busy c).pool.port = some (example_enc_port n busy) := rfl

theorem example_enc_pool_st_cursor (n busy c : Nat) :
    (example_enc_pool_st n busy c).pool.enc_buffer_index = c := rfl

theorem example_enc_port_count (n busy : Nat) :
    (example_enc_port n busy).port_def.nBufferCountActual = n := rfl

theorem example_enc_buffers_length (n : Nat) : (example_enc_buffers n).length = n := by
  simp [example_enc_buffers]

/-- The first two probes of the search on an example pool whose 32-bit
product `nBufferCountActual * 3` is `2`, with slot `0` in-flight. -/
theorem example_enc_wrap_loop (n busy : Nat) (hwrap : to_guint (n * 3) = 2) (h2 : 2 < n)
    (hb : 1 ≤ busy) :
    enc_search_loop (example_enc_port n busy) (example_enc_buffers n) (2 ^ 32) 0 0 []
      = Run.done { buf := some 1, enc_buffer_index := 2, count := 2, probed := [0, 1] } := by
  have hf : (2 : Nat) ^ 32 = 4294967294 + 1 + 1 := by norm_num
  have hB : to_guint ((example_enc_port n busy).port_def.nBufferCountActual * 3) = 2 := hwrap
  have hn : (example_enc_port n busy).port_def.nBufferCountActual = n := rfl
  have h1 : gint_bits (to_gint ((0 : Int) + 1)) = 1 := by decide
  have h2b : gint_bits (to_gint (to_gint ((0 : Int) + 1) + 1)) = 2 := by decide
  have h3 : to_gint (to_gint ((0 : Int) + 1) + 1) = 2 := by decide
  have hu : decide (0 < busy) = true := by simpa using hb
  have hne1 : ¬ ((0 : Nat) + 1 = n) := by omega
  have hne2 : ¬ ((0 : Nat) + 1 + 1 = n) := by omega
  rw [hf, enc_search_loop_step _ _ _ 0 0 [] _ (example_enc_slot n busy 0 (by omega)),
    hB, h1, hn]
  simp only [hu, Bool.true_and, show decide ((1 : Nat) < 2) = true from by decide, if_true,
    hne1, if_false, List.nil_append]
  rw [enc_search_loop_step _ _ _ (0 + 1) _ [0] _ (example_enc_slot n busy 1 (by omega)),
    hB, h2b, h3, hn]
  simp only [Nat.lt_irrefl, decide_False, Bool.and_false, Bool.false_eq_true, if_false, hne2,
    List.singleton_append]

/-- Acquire on an example pool whose 32-bit product `nBufferCountActual * 3`
is `2`, with slot `0` in-flight and the cursor at `0`: the flow error after
two probes. -/
theorem example_enc_wrap_acquire (env : Env) (n busy : Nat) (hwrap : to_guint (n * 3) = 2)
    (h2 : 2 < n) (hb : 1 ≤ busy) :
    ∃ r, gst_omx_buffer_pool_acquire_buffer env (example_enc_pool_st n busy 0) = Run.done r ∧
      r.ret = GstFlowReturn.GST_FLOW_ERROR ∧ r.buffer = none ∧ r.probed = [0, 1] ∧
      r.st.pool.enc_buffer_index = 2 := by
  have hloop := example_enc_wrap_loop n busy hwrap h2 hb
  have hp : (example_enc_pool_st n busy 0).pool.port = some (example_enc_port n busy) := rfl
  have hd : (example_enc_port n busy).port_def.eDir ≠ OMX_DIRTYPE.OMX_DirOutput := by
    show OMX_DIRTYPE.OMX_DirInput ≠ OMX_DIRTYPE.OMX_DirOutput
    decide
  have he : (example_enc_pool_st n busy 0).pool.element.is_video_enc = true := rfl
  have hc : (example_enc_pool_st n busy 0).pool.enc_buffer_index = 0 := rfl
  have hB : to_guint ((example_enc_port n busy).port_def.nBufferCountActual * 3) = 2 := hwrap
  have hg : gint_bits 2 = 2 := by decide
  unfold gst_omx_buffer_pool_acquire_buffer
  simp only [hp, hd, he, if_false, if_true]
  unfold acquire_buffer_enc
  rw [example_enc_pool_st_buffers, hc, hloop]
  simp only [hB, hg, if_true]
  exact ⟨_, rfl, rfl, rfl, rfl, rfl⟩

/-- Counterexample to C2 as stated.  With `n = 1431655766` slots, all in-flight, and
the cursor at `0`, the 32-bit product `nBufferCountActual * 3` is `2`:
`acquire` returns the flow error after examining two candidates, not
`3 * n`, and leaves the cursor at `2`. -/
theorem enc_acquire_all_in_flight_counterexample :
    (1 ≤ 1431655766) ∧
    (example_enc_pool_st 1431655766 1431655766 0).pool.port
      = some (example_enc_port 1431655766 1431655766) ∧
    (example_enc_port 1431655766 1431655766).port_def.nBufferCountActual = 1431655766 ∧
    (example_enc_pool_st 1431655766 1431655766 0).pool.buffers.length = 1431655766 ∧
    (example_enc_pool_st 1431655766 1431655766 0).pool.enc_buffer_index = 0 ∧
    (∀ i, i < 1431655766 →
      Option.map (fun o => o.used)
        (slot_of_buffer (example_enc_port 1431655766 1431655766)
          (example_enc_pool_st 1431655766 1431655766 0).pool.buffers i) = some true) ∧
    ∃ r, gst_omx_buffer_pool_acquire_buffer example_env
          (example_enc_pool_st 1431655766 1431655766 0) = Run.done r ∧
      r.ret = GstFlowReturn.GST_FLOW_ERROR ∧ r.probed = [0, 1] ∧
      r.probed.length ≠ 3 * 1431655766 ∧ r.st.pool.enc_buffer_index = 2 := by
  refine ⟨by decide, example_enc_pool_st_port _ _ _, example_enc_port_count _ _, ?_,
    example_enc_pool_st_cursor _ _ _, ?_, ?_⟩
  · rw [example_enc_pool_st_buffers, example_enc_buffers_length]
  · intro i hi
    rw [example_enc_pool_st_buffers, example_enc_slot 1431655766 1431655766 i hi]
    simp [hi]
  · obtain ⟨r, hr, hret, _, hprobed, hcur⟩ :=
      example_enc_wrap_acquire example_env 1431655766 1431655766 (by decide) (by decide)
        (by decide)
    refine ⟨r, hr, hret, hprobed, ?_, hcur⟩
    rw [hprobed]
    decide

/-- Counterexample to C3 as stated.  With `n = 1431655766` slots, only slot `0`
in-flight and the cursor at `0`, the first buffer whose slot is free is the
one at index `1` (`k = 1`), yet `acquire` returns the flow error and no
buffer: the counter reaches `2`, the 32-bit value of `nBufferCountActual * 3`. -/
theorem enc_acquire_first_unused_counterexample :
    (1 ≤ 1431655766) ∧
    (example_enc_pool_st 1431655766 1 0).pool.port = some (example_enc_port 1431655766 1) ∧
    (example_enc_port 1431655766 1).port_def.nBufferCountActual = 1431655766 ∧
    (example_enc_pool_st 1431655766 1 0).pool.buffers.length = 1431655766 ∧
    (example_enc_pool_st 1431655766 1 0).pool.enc_buffer_index = 0 ∧
    Option.map (fun o => o.used)
      (slot_of_buffer (example_enc_port 1431655766 1)
        (example_enc_pool_st 1431655766 1 0).pool.buffers ((0 + 0) % 1431655766)) = some true ∧
    Option.map (fun o => o.used)
      (slot_of_buffer (example_enc_port 1431655766 1)
        (example_enc_pool_st 1431655766 1 0).pool.buffers ((0 + 1) % 1431655766)) = some false ∧
    ∃ r, gst_omx_buffer_pool_acquire_buffer example_env (example_enc_pool_st 1431655766 1 0)
          = Run.done r ∧
      r.ret = GstFlowReturn.GST_FLOW_ERROR ∧ r.buffer = none ∧ r.probed = [0, 1] := by
  refine ⟨by decide, example_enc_pool_st_port _ _ _, example_enc_port_count _ _, ?_,
    example_enc_pool_st_cursor _ _ _, ?_, ?_, ?_⟩
  · rw [example_enc_pool_st_buffers, example_enc_buffers_length]
  · rw [example_enc_pool_st_buffers, show (0 + 0) % 1431655766 = 0 from by decide,
      example_enc_slot 1431655766 1 0 (by decide)]
    rfl
  · rw [example_enc_pool_st_buffers, show (0 + 1) % 1431655766 = 1 from by decide,
      example_enc_slot 1431655766 1 1 (by decide)]
    rfl
  · obtain ⟨r, hr, hret, hbuf, hprobed, _⟩ :=
      example_enc_wrap_acquire example_env 1431655766 1 (by decide) (by decide) (by decide)
    exact ⟨r, hr, hret, hbuf, hprobed⟩

end GstOmxBufferPool
